import Mathlib

/-!
Verification of the cellular-screenshot processing pipeline
(image routing, transport retry policy, extraction pipelines,
JSON response cleaning, number cleaning, schema records, and the
expression-resolution / write-back engine), shallowly embedded from
the Python source (src/core/*.py).  Strings are modelled as `List Char`
(ASCII; the source data is ASCII), machine floats as exact rationals
where a value is needed.
-/

/- ===================== basic character / string helpers ===================== -/

/-- Python `str.strip()` whitespace set (ASCII part of `\s`). -/
def pyIsSpace (c : Char) : Bool :=
  c = ' ' || c = '\t' || c = '\n' || c = '\r' || c = '\x0b' || c = '\x0c'

/-- Drop trailing characters satisfying `p`. -/
def dropTrailing (p : Char → Bool) (l : List Char) : List Char :=
  (l.reverse.dropWhile p).reverse

/-- Python `str.strip()` (no argument form). -/
def pyStrip (l : List Char) : List Char :=
  dropTrailing pyIsSpace (l.dropWhile pyIsSpace)

/-- Python `str.strip(chars)`: remove leading/trailing characters in `cs`. -/
def pyStripChars (cs : List Char) (l : List Char) : List Char :=
  dropTrailing (fun c => cs.contains c) (l.dropWhile (fun c => cs.contains c))

/- ===================== Python int() model ===================== -/

/-- Digit-run value accumulator: fold decimal digits onto `acc`.
Underscores are allowed between digits, as in CPython's `int()`. -/
def digitsUCore : List Char → Nat → Option Nat
  | [], acc => some acc
  | c :: t, acc =>
      if c = '_' then
        match t with
        | c2 :: t2 =>
            if c2.isDigit then digitsUCore t2 (acc * 10 + (c2.toNat - 48)) else none
        | [] => none
      else if c.isDigit then digitsUCore t (acc * 10 + (c.toNat - 48)) else none

/-- Value of a plain digit run. -/
def digitsVal (l : List Char) : Nat :=
  l.foldl (fun a c => a * 10 + (c.toNat - 48)) 0

/-- Model of Python `int(s)` for ASCII strings: optional surrounding
whitespace, optional sign, then decimal digits (single underscores
permitted between digits). -/
def pyInt? (l : List Char) : Option Int :=
  match pyStrip l with
  | [] => none
  | c :: t =>
      if c = '+' then
        match t with
        | c2 :: _ => if c2.isDigit then (digitsUCore t 0).map Int.ofNat else none
        | [] => none
      else if c = '-' then
        match t with
        | c2 :: _ => if c2.isDigit then (digitsUCore t 0).map (fun n => -(Int.ofNat n)) else none
        | [] => none
      else if c.isDigit then (digitsUCore (c :: t) 0).map Int.ofNat else none

/- ===================== image-name routing (evaluator.process_workflow) ===================== -/

/-- Python `name.split("_")`: split on every underscore, keeping empty parts. -/
def splitU : List Char → List (List Char)
  | [] => [[]]
  | c :: t =>
      match splitU t with
      | [] => [[]]
      | s :: rest => if c = '_' then [] :: s :: rest else (c :: s) :: rest

/-- Outcome of the deterministic routing step of `Evaluator.process_workflow`
for one image name. -/
inductive Route where
  /-- sector == "voicetest": voice pipeline, regardless of suffix. -/
  | voice
  /-- suffix 1 or 2: the image belongs to the sector's Service pair. -/
  | servicePair
  /-- suffix 3..7: speed-test pipeline. -/
  | speed
  /-- suffix 8: video-test pipeline. -/
  | video
  /-- well-formed name, but the suffix matches no pipeline (warned skip). -/
  | skipUnmatched
  /-- `{sector}_image_{x}` shape with a non-integer `x` (warned skip). -/
  | skipBadInt
  /-- name does not have the `..._image_...` structure (silent skip). -/
  | skipMalformed
  deriving DecidableEq, Repr

/-- Whether the name splits into at least three parts with second part
"image" — the structural guard `len(parts) >= 3 and parts[1] == "image"`. -/
def nameStructureOk (name : List Char) : Bool :=
  let parts := splitU name
  decide (3 ≤ parts.length) && parts.getD 1 [] = "image".data

/-- The routing decision of `Evaluator.process_workflow` as a pure function
of the image name (stem), mirroring the source's branch order. -/
def routeImageName (name : List Char) : Route :=
  let parts := splitU name
  if nameStructureOk name then
    match pyInt? (parts.getD 2 []) with
    | none => .skipBadInt
    | some n =>
        if parts.getD 0 [] = "voicetest".data then .voice
        else if n = 1 ∨ n = 2 then .servicePair
        else if 3 ≤ n ∧ n ≤ 7 then .speed
        else if n = 8 then .video
        else .skipUnmatched
  else .skipMalformed

/-- The warning log lines the routing step emits for one image name
(empty list = nothing logged). -/
def routeWarnings (name : List Char) : List String :=
  let parts := splitU name
  if nameStructureOk name then
    match pyInt? (parts.getD 2 []) with
    | none => ["[WARN] Could not parse number from " ++ String.mk name]
    | some n =>
        if parts.getD 0 [] = "voicetest".data then []
        else if n = 1 ∨ n = 2 then []
        else if 3 ≤ n ∧ n ≤ 7 then []
        else if n = 8 then []
        else ["[WARN] Image " ++ String.mk name ++
              " did not match any pipeline (Suffix " ++ toString n ++ "). Skipping."]
  else []

/-- An image name "matches the `\x7bsector\x7d_image_\x7binteger\x7d` shape":
structure ok and the suffix parses as an integer. -/
def matchesShape (name : List Char) : Bool :=
  nameStructureOk name && (pyInt? ((splitU name).getD 2 [])).isSome

/-- Routes on which the image is excluded from every pipeline. -/
def Route.isSkip : Route → Bool
  | .skipUnmatched | .skipBadInt | .skipMalformed => true
  | _ => false

/- ===================== transport layer (api_manager.post_chat_completion) ===================== -/

/-- What the HTTP round trip of one attempt does, from the caller's view
(`requests.post` + `raise_for_status`). -/
inductive Outcome where
  /-- 2xx: `response.json()` is returned. -/
  | ok
  /-- `raise_for_status` raised `HTTPError` with this status code. -/
  | httpErr (code : Nat)
  /-- `requests.exceptions.Timeout`. -/
  | timeoutErr
  /-- `requests.exceptions.ConnectionError`. -/
  | connErr
  /-- any other exception. -/
  | otherErr
  deriving DecidableEq, Repr

/-- Observable transport events: an HTTP attempt with its timeout (seconds),
or a `time.sleep` backoff. -/
inductive TEv where
  | attempt (timeoutSecs : Nat)
  | backoff (secs : Nat)
  deriving DecidableEq, Repr

/-- Result of `post_chat_completion`: the response, or which exception
propagated to the caller. -/
inductive TRes where
  | success
  | raisedHttp (code : Nat)
  | raisedTimeout
  | raisedConn
  | raisedOther
  /-- the dead `return None` after the loop. -/
  | noneResult
  deriving DecidableEq, Repr

/-- One pass of the `for i, timeout in enumerate(timeouts)` loop of
`APIManager.post_chat_completion`; `out i` is the outcome of the i-th
HTTP attempt. -/
def postChatGo (out : Nat → Outcome) (i : Nat) : List Nat → List TEv × TRes
  | [] => ([], .noneResult)
  | t :: rest =>
      match out i with
      | .ok => ([.attempt t], .success)
      | .httpErr c =>
          if 400 ≤ c ∧ c < 500 ∧ c ≠ 429 then
            ([.attempt t], .raisedHttp c)
          else if rest.isEmpty then ([.attempt t], .raisedHttp c)
          else
            let (evs, r) := postChatGo out (i + 1) rest
            (.attempt t :: .backoff 2 :: evs, r)
      | .timeoutErr =>
          if rest.isEmpty then ([.attempt t], .raisedTimeout)
          else
            let (evs, r) := postChatGo out (i + 1) rest
            (.attempt t :: .backoff 2 :: evs, r)
      | .connErr =>
          if rest.isEmpty then ([.attempt t], .raisedConn)
          else
            let (evs, r) := postChatGo out (i + 1) rest
            (.attempt t :: .backoff 2 :: evs, r)
      | .otherErr => ([.attempt t], .raisedOther)

/-- `APIManager.post_chat_completion`: two attempts, timeouts 60 then 120. -/
def post_chat_completion (out : Nat → Outcome) : List TEv × TRes :=
  postChatGo out 0 [60, 120]

/- ===================== JSON values and number model ===================== -/

/-- A Python number as produced by `json.loads` / `float()`: either an int
or a float.  Machine floats are modelled as exact rationals (no claim in
scope depends on IEEE rounding). -/
inductive PyNum where
  | int (i : Int)
  | float (q : Rat)
  deriving DecidableEq, Repr

/-- A Python value as produced by `json.loads` (and stored in the run
context's `to_dict` snapshot). -/
inductive JVal where
  | null
  | bool (b : Bool)
  | num (n : PyNum)
  | str (s : String)
  | arr (items : List JVal)
  | obj (fields : List (String × JVal))
  deriving BEq, Repr

def JVal.isNull : JVal → Bool
  | .null => true
  | _ => false

/- ===================== extractor._clean_number ===================== -/

/-- The unsigned part `\d+\.?\d*` matched at the head of `l`. -/
def numCore (l : List Char) : Option (List Char) :=
  match l with
  | c :: _ =>
      if c.isDigit then
        let d1 := l.takeWhile Char.isDigit
        let rest := l.drop d1.length
        match rest with
        | '.' :: r2 => some (d1 ++ '.' :: r2.takeWhile Char.isDigit)
        | _ => some d1
      else none
  | [] => none

/-- The regex `-?\d+\.?\d*` matched at the head of `l` (no search). -/
def numTokenAt (l : List Char) : Option (List Char) :=
  match l with
  | '-' :: t =>
      match numCore t with
      | some m => some ('-' :: m)
      | none => none
  | _ => numCore l

/-- Leftmost match of `-?\d+\.?\d*` anywhere in `l`
(`re.search(r'(-?\d+\.?\d*)', s)`). -/
def searchNumber : List Char → Option (List Char)
  | [] => none
  | c :: t =>
      match numTokenAt (c :: t) with
      | some m => some m
      | none => searchNumber t

/-- Value of a (sign, digits, optional fraction) numeral as a rational:
model of Python `float()` applied to a `-?\d+\.?\d*` match. -/
def ratOfNumText (l : List Char) : Rat :=
  let (sgn, body) : Int × List Char :=
    match l with
    | '-' :: t => (-1, t)
    | _ => (1, l)
  let ip := body.takeWhile Char.isDigit
  let rest := body.drop ip.length
  let fp := match rest with
    | '.' :: r => r.takeWhile Char.isDigit
    | _ => []
  (sgn : Rat) * ((digitsVal ip : Rat) + (digitsVal fp : Rat) / ((10 : Rat) ^ fp.length))

/-- `Extractor._clean_number`: None/int/float (and bool, a Python int
subclass) pass through; a string is stripped of whitespace and quote
characters and searched for the first `-?\d+\.?\d*` token, which is
returned as a float; anything without such a token becomes None.
Containers are stringified first (`str(value)`); no claim exercises that
branch, and `pyStrJVal` renders them approximately. -/
def pyStrJVal : JVal → String
  | .null => "None"
  | .bool b => if b then "True" else "False"
  | .num (.int i) => toString i
  | .num (.float q) => toString q
  | .str s => s
  | .arr _ => "[...]"
  | .obj _ => "\x7b...\x7d"

def clean_number (v : JVal) : JVal :=
  match v with
  | .null => .null
  | .bool b => .bool b
  | .num n => .num n
  | other =>
      let s0 := match other with
        | .str s => s.data
        | x => (pyStrJVal x).data
      let s := pyStripChars ['\'', '"'] (pyStrip s0)
      match searchNumber s with
      | some m => .num (.float (ratOfNumText m))
      | none => .null

/- ===================== Python float() on strings ===================== -/

/-- Model of Python `float(s)` for plain decimal strings: optional
surrounding whitespace, optional sign, digits with an optional fractional
part (at least one digit overall).  Exponent notation, `inf`/`nan` and
digit underscores are not modelled (no claim exercises them); such
strings are treated as a parse failure. -/
def pyFloatParse (l : List Char) : Option Rat :=
  let s := pyStrip l
  let (sgn, body) : Int × List Char :=
    match s with
    | '-' :: t => (-1, t)
    | '+' :: t => (1, t)
    | _ => (1, s)
  let ip := body.takeWhile Char.isDigit
  let rest := body.drop ip.length
  match rest with
  | [] =>
      if ip.isEmpty then none
      else some ((sgn : Rat) * (digitsVal ip : Rat))
  | '.' :: r =>
      let fp := r.takeWhile Char.isDigit
      if r.length ≠ fp.length then none
      else if ip.isEmpty ∧ fp.isEmpty then none
      else some ((sgn : Rat) * ((digitsVal ip : Rat) + (digitsVal fp : Rat) / ((10 : Rat) ^ fp.length)))
  | _ => none

/- ===================== schema records (config.py) ===================== -/

/-- `config.ServiceData`: 14 optional numeric radio parameters. -/
structure ServiceData where
  nr_arfcn : Option Rat := none
  nr_band : Option Rat := none
  nr_pci : Option Rat := none
  nr_bw : Option Rat := none
  nr5g_rsrp : Option Rat := none
  nr5g_rsrq : Option Rat := none
  nr5g_sinr : Option Rat := none
  lte_band : Option Rat := none
  lte_earfcn : Option Rat := none
  lte_pci : Option Rat := none
  lte_bw : Option Rat := none
  lte_rsrp : Option Rat := none
  lte_rsrq : Option Rat := none
  lte_sinr : Option Rat := none
  deriving DecidableEq, Repr

/-- `config.SpeedTestData`. -/
structure SpeedTestData where
  download_mbps : Option Rat := none
  upload_mbps : Option Rat := none
  ping_ms : Option Rat := none
  jitter_ms : Option Rat := none
  deriving DecidableEq, Repr

/-- `config.VideoTestData`. -/
structure VideoTestData where
  max_resolution : Option String := none
  load_time_ms : Option Rat := none
  buffering_percentage : Option Rat := none
  deriving DecidableEq, Repr

/-- `config.VoiceCallData`. -/
structure VoiceCallData where
  phone_number : Option String := none
  call_duration_seconds : Option Rat := none
  call_status : Option String := none
  time : Option String := none
  deriving DecidableEq, Repr

/-- First-match association lookup (Python dict keys are unique). -/
def assocGet (kvs : List (String × JVal)) (k : String) : Option JVal :=
  (kvs.find? (fun p => p.fst = k)).map Prod.snd

/-- Pydantic-style coercion of a JSON value into an `Optional[float]`
field: `None` stays empty, numbers are accepted, numeric strings are
coerced, everything else is a validation error (`none` = whole record
rejected). -/
def coerceOptFloat : JVal → Option (Option Rat)
  | .null => some none
  | .num (.int i) => some (some (i : Rat))
  | .num (.float q) => some (some q)
  | .str s => (pyFloatParse s.data).map some
  | _ => none

/-- Pydantic-style coercion into an `Optional[str]` field. -/
def coerceOptStr : JVal → Option (Option String)
  | .null => some none
  | .str s => some (some s)
  | _ => none

/-- Read an `Optional[float]` field from the parsed data: an absent key
keeps the declared default `None`. -/
def fieldOptFloat (data : List (String × JVal)) (k : String) : Option (Option Rat) :=
  match assocGet data k with
  | none => some none
  | some v => coerceOptFloat v

/-- Read an `Optional[str]` field from the parsed data. -/
def fieldOptStr (data : List (String × JVal)) (k : String) : Option (Option String) :=
  match assocGet data k with
  | none => some none
  | some v => coerceOptStr v

/-- `SpeedTestData(**data)`: validate/coerce each declared field; extra
keys are ignored; a failing field rejects the record. -/
def mkSpeedTestData (data : List (String × JVal)) : Option SpeedTestData := do
  let d ← fieldOptFloat data "download_mbps"
  let u ← fieldOptFloat data "upload_mbps"
  let p ← fieldOptFloat data "ping_ms"
  let j ← fieldOptFloat data "jitter_ms"
  pure ⟨d, u, p, j⟩

/-- `VideoTestData(**data)`. -/
def mkVideoTestData (data : List (String × JVal)) : Option VideoTestData := do
  let m ← fieldOptStr data "max_resolution"
  let l ← fieldOptFloat data "load_time_ms"
  let b ← fieldOptFloat data "buffering_percentage"
  pure ⟨m, l, b⟩

/-- `VoiceCallData(**data)`. -/
def mkVoiceCallData (data : List (String × JVal)) : Option VoiceCallData := do
  let p ← fieldOptStr data "phone_number"
  let d ← fieldOptFloat data "call_duration_seconds"
  let s ← fieldOptStr data "call_status"
  let t ← fieldOptStr data "time"
  pure ⟨p, d, s, t⟩

/-- `ServiceData(**data)`. -/
def mkServiceData (data : List (String × JVal)) : Option ServiceData := do
  let a1 ← fieldOptFloat data "nr_arfcn"
  let a2 ← fieldOptFloat data "nr_band"
  let a3 ← fieldOptFloat data "nr_pci"
  let a4 ← fieldOptFloat data "nr_bw"
  let a5 ← fieldOptFloat data "nr5g_rsrp"
  let a6 ← fieldOptFloat data "nr5g_rsrq"
  let a7 ← fieldOptFloat data "nr5g_sinr"
  let b1 ← fieldOptFloat data "lte_band"
  let b2 ← fieldOptFloat data "lte_earfcn"
  let b3 ← fieldOptFloat data "lte_pci"
  let b4 ← fieldOptFloat data "lte_bw"
  let b5 ← fieldOptFloat data "lte_rsrp"
  let b6 ← fieldOptFloat data "lte_rsrq"
  let b7 ← fieldOptFloat data "lte_sinr"
  pure ⟨a1, a2, a3, a4, a5, a6, a7, b1, b2, b3, b4, b5, b6, b7⟩

/- ===================== a tiny regex engine =====================
Enough of Python `re` (greedy, backtracking) for the patterns the source
uses: literal characters, single-character classes, `X?`, `X*`, `X+` over
character classes, with capturing on the starred/plussed classes. -/

/-- One regex token. -/
inductive RTok where
  | ch (c : Char)
  | cls (f : Char → Bool)
  | opt (f : Char → Bool)
  | many0 (f : Char → Bool) (cap : Bool)
  | many1 (f : Char → Bool) (cap : Bool)

/-- Greedy backtracking loop for `many0`/`many1`: try run lengths from
`k` down to `minK`, appending the captured run when `cap` is set. -/
def runLoop (cont : List Char → Option (Nat × List (List Char)))
    (cap : Bool) (l : List Char) (minK : Nat) : Nat → Option (Nat × List (List Char))
  | 0 =>
      if 0 < minK then none
      else match cont l with
        | some (n, cs) => some (n, if cap then [] :: cs else cs)
        | none => none
  | (k + 1) =>
      if k + 1 < minK then none
      else match cont (l.drop (k + 1)) with
        | some (n, cs) => some (k + 1 + n, if cap then l.take (k + 1) :: cs else cs)
        | none => runLoop cont cap l minK k

/-- Match a token list at the head of `l`; returns consumed length and
the captured groups in order. -/
def reMatch : List RTok → List Char → Option (Nat × List (List Char))
  | [], _ => some (0, [])
  | .ch c :: ts, l =>
      match l with
      | x :: xs => if x = c then (reMatch ts xs).map (fun p => (p.1 + 1, p.2)) else none
      | [] => none
  | .cls f :: ts, l =>
      match l with
      | x :: xs => if f x then (reMatch ts xs).map (fun p => (p.1 + 1, p.2)) else none
      | [] => none
  | .opt f :: ts, l =>
      match l with
      | x :: xs =>
          if f x then
            match reMatch ts xs with
            | some (n, cs) => some (n + 1, cs)
            | none => reMatch ts l
          else reMatch ts l
      | [] => reMatch ts []
  | .many0 f cap :: ts, l =>
      runLoop (reMatch ts) cap l 0 (l.takeWhile f).length
  | .many1 f cap :: ts, l =>
      let mx := (l.takeWhile f).length
      if mx = 0 then none else runLoop (reMatch ts) cap l 1 mx

/-- Leftmost match: captures and the remainder after the match
(advancing at least one character, as `re` does after an empty match). -/
def reSearchCore (toks : List RTok) : List Char → Option (List (List Char) × List Char)
  | [] => (reMatch toks []).map (fun p => (p.2, []))
  | c :: t =>
      match reMatch toks (c :: t) with
      | some (n, cs) => some (cs, (c :: t).drop (max n 1))
      | none => reSearchCore toks t

/-- `re.findall`: all non-overlapping matches, left to right. -/
def reFindAll (toks : List RTok) (l : List Char) : List (List (List Char)) :=
  go (l.length + 1) l
where
  go : Nat → List Char → List (List (List Char))
    | 0, _ => []
    | fuel + 1, l =>
        match reSearchCore toks l with
        | none => []
        | some (cs, rest) => cs :: go fuel rest

/- ===================== api_manager.clean_json_response ===================== -/

/-- The `re.search(r'(\x7b.*\x7d)', content, re.DOTALL)` match: from the
first `\x7b` that has a later `\x7d`, up to the last `\x7d` of the text
(greedy `.*` under DOTALL). -/
def braceSpan? : List Char → Option (List Char)
  | [] => none
  | c :: t =>
      if c = '{' ∧ t.contains '}' then
        some (c :: (t.reverse.dropWhile (fun x => x ≠ '}')).reverse)
      else braceSpan? t

/-- Normalize a markdown bullet key:
`re.sub(r'[^a-zA-Z0-9]', '_', key.strip()).lower()`, collapse `_+` runs,
strip `_`. -/
def normKey (k : List Char) : List Char :=
  let s1 := (pyStrip k).map (fun c => if c.isAlphanum then c.toLower else '_')
  pyStripChars ['_'] (collapseU s1)
where
  collapseU : List Char → List Char
    | [] => []
    | [c] => [c]
    | c1 :: c2 :: t =>
        if c1 = '_' ∧ c2 = '_' then collapseU (c2 :: t)
        else c1 :: collapseU (c2 :: t)

/-- Parse a markdown bullet value: `int(v)` when it has no dot, `float(v)`
when it has one; on `ValueError` keep the string, except the literal
`null` (case-insensitive) which becomes None. -/
def mdValue (vraw : List Char) : JVal :=
  let value := pyStrip vraw
  let parsed : Option JVal :=
    if value.contains '.' then (pyFloatParse value).map (fun q => .num (.float q))
    else (pyInt? value).map (fun i => .num (.int i))
  match parsed with
  | some jv => jv
  | none =>
      if value.map Char.toLower = "null".data then .null
      else .str (String.mk value)

/-- Insert-or-overwrite keeping the first position of the key
(Python dict assignment). -/
def upsert (kvs : List (String × JVal)) (k : String) (v : JVal) : List (String × JVal) :=
  if kvs.any (fun p => p.fst = k) then
    kvs.map (fun p => if p.fst = k then (k, v) else p)
  else kvs ++ [(k, v)]

/-- The three bullet patterns of `clean_json_response`, in source order. -/
def bulletPatterns : List (List RTok) :=
  [ [.ch '*', .many0 pyIsSpace false, .ch '*', .ch '*',
     .many1 (fun c => c ≠ ':' && c ≠ '*') true, .ch '*', .ch '*', .ch ':',
     .many0 pyIsSpace false, .many1 (fun c => c ≠ '\n' && c ≠ '*') true],
    [.ch '-', .many0 pyIsSpace false, .ch '*', .ch '*',
     .many1 (fun c => c ≠ ':' && c ≠ '*') true, .ch '*', .ch '*', .ch ':',
     .many0 pyIsSpace false, .many1 (fun c => c ≠ '\n' && c ≠ '-') true],
    [.ch '*', .ch '*',
     .many1 (fun c => c ≠ ':' && c ≠ '*') true, .ch '*', .ch '*', .ch ':',
     .many0 pyIsSpace false, .many1 (fun c => c ≠ '\n') true] ]

/-- The markdown fallback of `clean_json_response`: run the three
patterns in order, folding every (key, value) match into the result
dict. -/
def mdFallback (content : List Char) : List (String × JVal) :=
  bulletPatterns.foldl
    (fun acc pat =>
      (reFindAll pat content).foldl
        (fun acc caps =>
          match caps with
          | [k, v] => upsert acc (String.mk (normKey k)) (mdValue v)
          | _ => acc)
        acc)
    []

/-- `json.dumps` with default separators.  Floats are rendered as their
exact decimal expansion when finite (claims only exercise ints and
strings); strings get minimal escaping. -/
def jsonEscape (s : String) : String :=
  String.join (s.data.map fun c =>
    if c = '"' then "\\\""
    else if c = '\\' then "\\\\"
    else if c = '\n' then "\\n"
    else if c = '\t' then "\\t"
    else if c = '\r' then "\\r"
    else String.mk [c])

/-- Decimal rendering of a rational with a power-of-ten denominator
(a Python float repr for the simple decimals in scope). -/
def decimalRepr (q : Rat) : String :=
  if q.den = 1 then toString q.num ++ ".0"
  else
    match (List.range 18).find? (fun k => (q * (10 : Rat) ^ k).den = 1) with
    | some k =>
        let scaled := (q * (10 : Rat) ^ k).num
        let sgn := if scaled < 0 then "-" else ""
        let digits := toString scaled.natAbs
        let digits := if digits.length ≤ k then
            String.mk (List.replicate (k + 1 - digits.length) '0') ++ digits
          else digits
        sgn ++ digits.dropRight k ++ "." ++ digits.takeRight k
    | none => toString q

mutual

def jsonDumps : JVal → String
  | .null => "null"
  | .bool b => if b then "true" else "false"
  | .num (.int i) => toString i
  | .num (.float q) => decimalRepr q
  | .str s => "\"" ++ jsonEscape s ++ "\""
  | .arr items => "[" ++ String.intercalate ", " (jsonDumpsList items) ++ "]"
  | .obj kvs => "\x7b" ++ String.intercalate ", " (jsonDumpsPairs kvs) ++ "\x7d"

def jsonDumpsList : List JVal → List String
  | [] => []
  | v :: t => jsonDumps v :: jsonDumpsList t

def jsonDumpsPairs : List (String × JVal) → List String
  | [] => []
  | (k, v) :: t => ("\"" ++ jsonEscape k ++ "\": " ++ jsonDumps v) :: jsonDumpsPairs t

end

/-- `APIManager.clean_json_response`: empty input gives the sentinel;
otherwise the greedy brace span if one exists; otherwise the markdown
bullet fallback; otherwise the sentinel. -/
def clean_json_response (content : String) : String :=
  if content = "" then "\x7b\x7d"
  else
    match braceSpan? content.data with
    | some m => String.mk (pyStrip m)
    | none =>
        let result := mdFallback content.data
        if result.isEmpty then "\x7b\x7d"
        else jsonDumps (.obj result)

/- ===================== json.loads ===================== -/

/-- JSON whitespace. -/
def jpSkipWs (l : List Char) : List Char :=
  l.dropWhile (fun c => c = ' ' || c = '\t' || c = '\n' || c = '\r')

/-- Hex digit value. -/
def hexVal (c : Char) : Option Nat :=
  if c.isDigit then some (c.toNat - 48)
  else if 'a' ≤ c ∧ c ≤ 'f' then some (c.toNat - 87)
  else if 'A' ≤ c ∧ c ≤ 'F' then some (c.toNat - 55)
  else none

/-- JSON string body after the opening quote: characters up to the
closing quote, with the standard escapes. -/
def jpStrChars : List Char → Option (List Char × List Char)
  | [] => none
  | '"' :: t => some ([], t)
  | '\\' :: 'u' :: a :: b :: c :: d :: t => do
      let ha ← hexVal a
      let hb ← hexVal b
      let hc ← hexVal c
      let hd ← hexVal d
      let (s, r) ← jpStrChars t
      pure (Char.ofNat (((ha * 16 + hb) * 16 + hc) * 16 + hd) :: s, r)
  | '\\' :: e :: t => do
      let c ← match e with
        | '"' => some '"'
        | '\\' => some '\\'
        | '/' => some '/'
        | 'n' => some '\n'
        | 't' => some '\t'
        | 'r' => some '\r'
        | 'b' => some '\x08'
        | 'f' => some '\x0c'
        | _ => none
      let (s, r) ← jpStrChars t
      pure (c :: s, r)
  | c :: t =>
      if c.toNat < 32 then none
      else do
        let (s, r) ← jpStrChars t
        pure (c :: s, r)

/-- JSON number: `-? int frac? exp?` with the strict JSON int grammar;
a fraction or exponent makes it a Python float. -/
def jpNumber (l : List Char) : Option (PyNum × List Char) := do
  let (sgn, l) : Int × List Char := match l with
    | '-' :: t => (-1, t)
    | _ => (1, l)
  let (ip, l) ← match l with
    | '0' :: t => some (([ '0' ] : List Char), t)
    | c :: _ =>
        if c.isDigit then
          let d := l.takeWhile Char.isDigit
          some (d, l.drop d.length)
        else none
    | [] => none
  let (fp, l) ← match l with
    | '.' :: r =>
        let d := r.takeWhile Char.isDigit
        if d.isEmpty then none else some (some d, r.drop d.length)
    | _ => some (none, l)
  let (ex, l) ← match l with
    | c :: r =>
        if c = 'e' ∨ c = 'E' then
          let (esgn, r) : Int × List Char := match r with
            | '-' :: t => (-1, t)
            | '+' :: t => (1, t)
            | _ => (1, r)
          let d := r.takeWhile Char.isDigit
          if d.isEmpty then none else some (some (esgn * (digitsVal d : Int)), r.drop d.length)
        else some (none, l)
    | [] => some (none, l)
  let base : Rat := (digitsVal ip : Rat) +
    (match fp with
     | some f => (digitsVal f : Rat) / ((10 : Rat) ^ f.length)
     | none => 0)
  let scaled : Rat := match ex with
    | some e => if 0 ≤ e then base * (10 : Rat) ^ e.toNat else base / ((10 : Rat) ^ (-e).toNat)
    | none => base
  match fp, ex with
  | none, none => pure (.int (sgn * (digitsVal ip : Int)), l)
  | _, _ => pure (.float ((sgn : Rat) * scaled), l)

mutual

/-- One JSON value (fueled recursive-descent). -/
def jpVal : Nat → List Char → Option (JVal × List Char)
  | 0, _ => none
  | fuel + 1, l =>
      let l := jpSkipWs l
      match l with
      | '{' :: t =>
          let t' := jpSkipWs t
          (match t' with
           | '}' :: r => some (.obj [], r)
           | _ => (jpMembers fuel t []).map (fun p => (.obj p.1, p.2)))
      | '[' :: t =>
          let t' := jpSkipWs t
          (match t' with
           | ']' :: r => some (.arr [], r)
           | _ => (jpItems fuel t []).map (fun p => (.arr p.1, p.2)))
      | '"' :: t => (jpStrChars t).map (fun p => (.str (String.mk p.1), p.2))
      | 't' :: 'r' :: 'u' :: 'e' :: t => some (.bool true, t)
      | 'f' :: 'a' :: 'l' :: 's' :: 'e' :: t => some (.bool false, t)
      | 'n' :: 'u' :: 'l' :: 'l' :: t => some (.null, t)
      | c :: _ =>
          if c = '-' ∨ c.isDigit then (jpNumber l).map (fun p => (.num p.1, p.2))
          else none
      | [] => none

/-- Object members, accumulating with dict-overwrite semantics. -/
def jpMembers : Nat → List Char → List (String × JVal) →
    Option (List (String × JVal) × List Char)
  | 0, _, _ => none
  | fuel + 1, l, acc => do
      let l := jpSkipWs l
      match l with
      | '"' :: t => do
          let (k, r) ← jpStrChars t
          let r := jpSkipWs r
          match r with
          | ':' :: r2 => do
              let (v, r3) ← jpVal fuel r2
              let acc := upsert acc (String.mk k) v
              let r4 := jpSkipWs r3
              match r4 with
              | ',' :: r5 => jpMembers fuel r5 acc
              | '}' :: r5 => some (acc, r5)
              | _ => none
          | _ => none
      | _ => none

/-- Array items. -/
def jpItems : Nat → List Char → List JVal → Option (List JVal × List Char)
  | 0, _, _ => none
  | fuel + 1, l, acc => do
      let (v, r) ← jpVal fuel l
      let r := jpSkipWs r
      match r with
      | ',' :: r2 => jpItems fuel r2 (acc ++ [v])
      | ']' :: r2 => some (acc ++ [v], r2)
      | _ => none

end

/-- Model of Python `json.loads`: parse one value and require only
whitespace after it. -/
def jsonLoads (s : String) : Option JVal :=
  match jpVal (s.length * 2 + 16) s.data with
  | some (v, rest) => if (jpSkipWs rest).isEmpty then some v else none
  | none => none

/- ===================== extraction pipelines (extractor.py) =====================
The pipelines are modelled as functions of stage oracles (the remote
responses) that also report the trace of external calls and sleeps, so
call-count and pacing claims are statements about the trace.  Transport
internals (retries inside one call) are modelled separately by
`post_chat_completion`. -/

/-- An externally observable event of a pipeline run. -/
inductive ExtEvent where
  /-- one external provider call (OCR endpoint, vision model, or reasoning model). -/
  | call (provider : String)
  /-- a deliberate pause of `secs` seconds between calls. -/
  | wait (secs : Nat)
  deriving DecidableEq, Repr

/-- Whether an event is a pause. -/
def ExtEvent.isWait : ExtEvent → Bool
  | .wait _ => true
  | .call _ => false

/-- How one `_paddle_ocr` invocation goes. -/
inductive PaddleOutcome where
  /-- the image file could not be read: no request is made. -/
  | noImage
  /-- base64 payload at or above the 180000-byte ceiling: skipped, no request. -/
  | tooLarge
  /-- the request failed (exception): no text. -/
  | requestFailed
  /-- the response contained no text detections. -/
  | noText
  /-- text detections joined into `t` (a nonempty join). -/
  | gotText (t : String)
  deriving DecidableEq, Repr

/-- `Extractor._paddle_ocr`: events plus the Optional[str] result. -/
def paddle_ocr : PaddleOutcome → List ExtEvent × Option String
  | .noImage => ([], none)
  | .tooLarge => ([], none)
  | .requestFailed => ([.call "ocr"], none)
  | .noText => ([.call "ocr"], none)
  | .gotText t => ([.call "ocr"], some t)

/-- How one `_vision_extract` invocation goes. -/
inductive VisionOutcome where
  | noImage
  | requestFailed
  | gotText (t : String)
  deriving DecidableEq, Repr

/-- `Extractor._vision_extract`. -/
def vision_extract : VisionOutcome → List ExtEvent × Option String
  | .noImage => ([], none)
  | .requestFailed => ([.call "vision"], none)
  | .gotText t => ([.call "vision"], some t)

/-- How one reasoning call (`post_reasoning_completion`) goes. -/
inductive ReasonOutcome where
  /-- the transport call raised or returned no choices. -/
  | failed
  /-- the model answered with `content`; the result is its cleaned JSON. -/
  | gotContent (content : String)
  deriving DecidableEq, Repr

/-- `APIManager.post_reasoning_completion`: one reasoning-model call whose
successful result is `clean_json_response` of the content. -/
def post_reasoning_completion : ReasonOutcome → List ExtEvent × Option String
  | .failed => ([.call "reasoning"], none)
  | .gotContent c => ([.call "reasoning"], some (clean_json_response c))

/-- Python falsiness of an `Optional[str]` (`if not text`). -/
def strFalsy : Option String → Bool
  | none => true
  | some s => s = ""

/-- The keys `_reasoning_parse` exempts from number cleaning. -/
def noCleanKeys : List String := ["max_resolution", "call_status", "phone_number", "time"]

/-- The local post-processing of `_reasoning_parse`: `json.loads`, then
optional number cleaning, then schema construction; any failure yields
an absent record. -/
def reasoningPostprocess {α : Type} (mk : List (String × JVal) → Option α)
    (cleanNumbers : Bool) (jsonStr : Option String) : Option α :=
  match jsonStr with
  | none => none
  | some js =>
      match jsonLoads js with
      | some (.obj data) =>
          let data := if cleanNumbers then
              data.map (fun p => if noCleanKeys.contains p.fst then p else (p.fst, clean_number p.snd))
            else data
          mk data
      | _ => none

/-- `Extractor.analyze_speed_test`: OCR, then (if any text) reasoning. -/
def analyze_speed_test (oc : PaddleOutcome) (orx : ReasonOutcome) :
    List ExtEvent × Option SpeedTestData :=
  let (e1, text) := paddle_ocr oc
  if strFalsy text then (e1, none)
  else
    let (e2, js) := post_reasoning_completion orx
    (e1 ++ e2, reasoningPostprocess mkSpeedTestData true js)

/-- `Extractor.analyze_video_test`. -/
def analyze_video_test (oc : PaddleOutcome) (orx : ReasonOutcome) :
    List ExtEvent × Option VideoTestData :=
  let (e1, text) := paddle_ocr oc
  if strFalsy text then (e1, none)
  else
    let (e2, js) := post_reasoning_completion orx
    (e1 ++ e2, reasoningPostprocess mkVideoTestData true js)

/-- `Extractor.analyze_voice_call`: vision model, then (if any text)
reasoning. -/
def analyze_voice_call (ov : VisionOutcome) (orx : ReasonOutcome) :
    List ExtEvent × Option VoiceCallData :=
  let (e1, text) := vision_extract ov
  if strFalsy text then (e1, none)
  else
    let (e2, js) := post_reasoning_completion orx
    (e1 ++ e2, reasoningPostprocess mkVoiceCallData true js)

/-- `Extractor.analyze_service_images`: OCR both images back to back; if
either yielded text, one reasoning pass over the labelled concatenation. -/
def analyze_service_images (o1 o2 : PaddleOutcome) (orx : ReasonOutcome) :
    List ExtEvent × Option ServiceData :=
  let (e1, t1) := paddle_ocr o1
  let (e2, t2) := paddle_ocr o2
  if strFalsy t1 ∧ strFalsy t2 then (e1 ++ e2, none)
  else
    let (e3, js) := post_reasoning_completion orx
    (e1 ++ e2 ++ e3, reasoningPostprocess mkServiceData false js)

/-- Whether the trace inserts a pause between every two successive calls
to the same provider (the pacing discipline the spec asserts);
`pending` is the provider of the last call seen with no pause after it. -/
def pacedOk : List ExtEvent → Option String → Bool
  | [], _ => true
  | .wait _ :: rest, _ => pacedOk rest none
  | .call p :: rest, pending =>
      match pending with
      | some q => if q = p then false else pacedOk rest (some p)
      | none => pacedOk rest (some p)

/-- Modelled from the spec: the fast, API-free local parse's acceptance
condition for the Speed pipeline — "the vision output already looks like
a complete JSON object matching the schema with zero null fields".  No
such parse exists in `extractor.py`; this definition exists only to
state the claim against the code. -/
def specFastParseCompleteSpeed (s : String) : Bool :=
  match jsonLoads s with
  | some (.obj kvs) =>
      (["download_mbps", "upload_mbps", "ping_ms", "jitter_ms"].all
        (fun k => match assocGet kvs k with
          | some (.num _) => true
          | _ => false)) &&
      kvs.all (fun p => !p.snd.isNull)
  | _ => false

/- ===================== mapper (mapper.py) ===================== -/

/-- `Mapper._normalize_name`: strip non-alphanumerics, lowercase. -/
def normalize_name (l : List Char) : List Char :=
  (l.filter Char.isAlphanum).map Char.toLower

/-- The run context's structured snapshot (`ProcessingContext.to_dict()`):
an ordered name → value mapping. -/
abbrev DataMap := List (String × JVal)

/-- `re.match(r"^([A-Za-z_]\w*)(.*)$", expr)` on whitespace-stripped
input: the leading identifier and the remainder (no match when a newline
is strictly inside the remainder, since `.*` cannot cross it). -/
def matchExprRe (l : List Char) : Option (List Char × List Char) :=
  match l with
  | c :: t =>
      if c.isAlpha ∨ c = '_' then
        let run := t.takeWhile (fun x => x.isAlphanum || x = '_')
        let rest := t.drop run.length
        if rest.contains '\n' then none else some (c :: run, rest)
      else none
  | [] => none

/-- The bracket-accessor pattern `\[['\"]([^'\"]+)['\"]\]`. -/
def isQuoteChar (c : Char) : Bool := c = '\'' || c = '"'

def bracketKeyPat : List RTok :=
  [.ch '[', .cls isQuoteChar, .many1 (fun c => !isQuoteChar c) true, .cls isQuoteChar, .ch ']']

/-- All bracket keys of the accessor text (`re.findall`). -/
def bracketKeys (rest : List Char) : List (List Char) :=
  (reFindAll bracketKeyPat rest).foldr
    (fun caps acc => match caps with
      | [k] => k :: acc
      | _ => acc)
    []

/-- `norm_map = \x7bnormalize(k): k for k in data_map\x7d; norm_map.get(...)`:
the last key whose normalization matches wins (dict-comprehension
overwrite order). -/
def normMapGet (dm : DataMap) (base : List Char) : Option String :=
  dm.foldl
    (fun acc p => if normalize_name p.fst.data = normalize_name base then some p.fst else acc)
    none

/-- One accessor step: the first stored key whose normalization matches. -/
def stepKey (kvs : List (String × JVal)) (k : List Char) : Option JVal :=
  (kvs.find? (fun p => normalize_name p.fst.data = normalize_name k)).map Prod.snd

/-- Walk the accessor chain; failure and a stored `None` both end as
`.null` (Python returns `None` in both cases). -/
def walkKeys : JVal → List (List Char) → JVal
  | cur, [] => cur
  | cur, k :: ks =>
      match cur with
      | .obj kvs =>
          match stepKey kvs k with
          | some v => walkKeys v ks
          | none => .null
      | _ => .null

/-- `Mapper.resolve_expression`: strip, parse, resolve the base against
the normalized top-level names, then walk the bracket keys.  Python's
`None` — returned both for every failure and for a stored null — is
`.null`. -/
def resolve_expression (dm : DataMap) (expr : List Char) : JVal :=
  let expr := pyStrip expr
  match matchExprRe expr with
  | none => .null
  | some (base, rest) =>
      match normMapGet dm base with
      | none => .null
      | some bk =>
          if bk = "" then .null  -- `if not base_key` also rejects a falsy key
          else
            match assocGet dm bk with
            | none => .null      -- unreachable: bk comes from dm
            | some v0 => walkKeys v0 (bracketKeys rest)

/-- Instrumented resolution distinguishing a failed lookup (`none`) from
a successfully found value (`some v`, possibly `some .null`).  Used to
state that the source conflates the two. -/
def resolveLookup (dm : DataMap) (expr : List Char) : Option JVal :=
  let expr := pyStrip expr
  match matchExprRe expr with
  | none => none
  | some (base, rest) =>
      match normMapGet dm base with
      | none => none
      | some bk =>
          if bk = "" then none
          else
            match assocGet dm bk with
            | none => none
            | some v0 => walkLookup v0 (bracketKeys rest)
where
  walkLookup : JVal → List (List Char) → Option JVal
    | cur, [] => some cur
    | cur, k :: ks =>
        match cur with
        | .obj kvs =>
            match stepKey kvs k with
            | some v => walkLookup v ks
            | none => none
        | _ => none

/- ----- the document scan / write-back (Mapper.map_to_excel) ----- -/

/-- A cell value as the mapper sees it. -/
inductive CellVal where
  | empty
  | str (s : String)
  | num (n : PyNum)
  | bool (b : Bool)
  deriving DecidableEq, Repr

/-- One worksheet cell in the scanned range: its value and the two font
attributes the marker convention reads. -/
structure Cell where
  value : CellVal
  bold : Bool
  fontColor : Option String
  deriving DecidableEq, Repr

/-- `str(col.rgb).upper()[-6:]`. -/
def upperLast6 (s : String) : String :=
  String.mk (((s.data.map Char.toUpper).reverse.take 6).reverse)

/-- The scan's marker test: non-empty string value, bold font, color
whose uppercased last six hex digits are `FF0000`. -/
def cellIsMarked (c : Cell) : Bool :=
  match c.value with
  | .str s =>
      s ≠ "" && c.bold &&
      (match c.fontColor with
       | some r => r ≠ "" && upperLast6 r = "FF0000"
       | none => false)
  | _ => false

/-- The cleaned expression of a marked cell: strip whitespace, then one
layer of surrounding quotes. -/
def cellExpr (c : Cell) : List Char :=
  match c.value with
  | .str s =>
      let e := pyStrip s.data
      let quoted :=
        (e.head? = some '"' ∧ e.getLast? = some '"') ∨
        (e.head? = some '\'' ∧ e.getLast? = some '\'')
      if quoted then pyStrip (e.dropLast.drop 1) else e
  | _ => []

/-- Writing a resolved value into a cell: composites are serialized to
JSON text, scalars written directly. -/
def applyVal : JVal → CellVal
  | .obj kvs => .str (jsonDumps (.obj kvs))
  | .arr items => .str (jsonDumps (.arr items))
  | .num n => .num n
  | .str s => .str s
  | .bool b => .bool b
  | .null => .empty   -- unreachable: null is routed to the sentinel write

/-- Replace a cell's value, keeping its font. -/
def setVal (c : Cell) (v : CellVal) : Cell := { c with value := v }

/-- The scan phase of `map_to_excel` over cells at the given indices, in
that order, against the *live* document: resolved values are staged in
`cells_to_update`, unresolved expressions are written `"NULL"` in place
immediately.  Returns (document after the scan, staged updates,
extract_text). -/
def scanGo (dm : DataMap) : List Nat → List Cell →
    List Cell × List (Nat × JVal) × List (List Char)
  | [], doc => (doc, [], [])
  | i :: rest, doc =>
      match doc.get? i with
      | none => scanGo dm rest doc
      | some c =>
          if cellIsMarked c then
            let e := cellExpr c
            let v := resolve_expression dm e
            if v.isNull then
              let (d, u, t) := scanGo dm rest (doc.set i (setVal c (.str "NULL")))
              (d, u, e :: t)
            else
              let (d, u, t) := scanGo dm rest doc
              (d, (i, v) :: u, e :: t)
          else scanGo dm rest doc

/-- The apply phase: write each staged value into its cell. -/
def applyUpdates (doc : List Cell) (ups : List (Nat × JVal)) : List Cell :=
  ups.foldl
    (fun d p =>
      match d.get? p.fst with
      | some c => d.set p.fst (setVal c (applyVal p.snd))
      | none => d)
    doc

/-- `Mapper.map_to_excel` with an explicit scan order (the source scans
row-major over the bounded range; `mapToExcelOrder` generalizes the
iteration order to state order-independence).  Returns the final
document and the accumulated extract_text. -/
def mapToExcelOrder (dm : DataMap) (order : List Nat) (doc : List Cell) :
    List Cell × List (List Char) :=
  let (d, u, t) := scanGo dm order doc
  (applyUpdates d u, t)

/-- `Mapper.map_to_excel`: the scan in document order. -/
def map_to_excel (dm : DataMap) (doc : List Cell) : List Cell × List (List Char) :=
  mapToExcelOrder dm (List.range doc.length) doc

/-- What one cell independently becomes in a mapping pass. -/
def cellApply (dm : DataMap) (c : Cell) : Cell :=
  if cellIsMarked c then
    let v := resolve_expression dm (cellExpr c)
    if v.isNull then setVal c (.str "NULL") else setVal c (applyVal v)
  else c

/-- Write a list of (index, cell) pairs into a document in order. -/
def foldSet (d : List Cell) (ws : List (Nat × Cell)) : List Cell :=
  ws.foldl (fun d p => d.set p.fst p.snd) d

/-- The scan phase's decisions read off the *original* document: the
in-place sentinel writes, the staged updates, and the extract_text, per
scanned index.  Used to relate the live scan to a pure per-cell
function. -/
def scanOutcomes (dm : DataMap) (doc : List Cell) :
    List Nat → List (Nat × Cell) × List (Nat × JVal) × List (List Char)
  | [] => ([], [], [])
  | i :: rest =>
      let (nw, up, tx) := scanOutcomes dm doc rest
      match doc.get? i with
      | none => (nw, up, tx)
      | some c =>
          if cellIsMarked c then
            if (resolve_expression dm (cellExpr c)).isNull then
              ((i, setVal c (.str "NULL")) :: nw, up, cellExpr c :: tx)
            else (nw, (i, resolve_expression dm (cellExpr c)) :: up, cellExpr c :: tx)
          else (nw, up, tx)

/- ===================== run context snapshot (config.ProcessingContext.to_dict) ===================== -/

/-- `model_dump` of an optional float field. -/
def dumpOptFloat : Option Rat → JVal
  | none => .null
  | some q => .num (.float q)

/-- `model_dump` of an optional string field. -/
def dumpOptStr : Option String → JVal
  | none => .null
  | some s => .str s

/-- `ServiceData.model_dump()`. -/
def ServiceData.dump (s : ServiceData) : JVal :=
  .obj [("nr_arfcn", dumpOptFloat s.nr_arfcn), ("nr_band", dumpOptFloat s.nr_band),
        ("nr_pci", dumpOptFloat s.nr_pci), ("nr_bw", dumpOptFloat s.nr_bw),
        ("nr5g_rsrp", dumpOptFloat s.nr5g_rsrp), ("nr5g_rsrq", dumpOptFloat s.nr5g_rsrq),
        ("nr5g_sinr", dumpOptFloat s.nr5g_sinr), ("lte_band", dumpOptFloat s.lte_band),
        ("lte_earfcn", dumpOptFloat s.lte_earfcn), ("lte_pci", dumpOptFloat s.lte_pci),
        ("lte_bw", dumpOptFloat s.lte_bw), ("lte_rsrp", dumpOptFloat s.lte_rsrp),
        ("lte_rsrq", dumpOptFloat s.lte_rsrq), ("lte_sinr", dumpOptFloat s.lte_sinr)]

/-- `SpeedTestData.model_dump()`. -/
def SpeedTestData.dump (s : SpeedTestData) : JVal :=
  .obj [("download_mbps", dumpOptFloat s.download_mbps),
        ("upload_mbps", dumpOptFloat s.upload_mbps),
        ("ping_ms", dumpOptFloat s.ping_ms), ("jitter_ms", dumpOptFloat s.jitter_ms)]

/-- `VideoTestData.model_dump()`. -/
def VideoTestData.dump (v : VideoTestData) : JVal :=
  .obj [("max_resolution", dumpOptStr v.max_resolution),
        ("load_time_ms", dumpOptFloat v.load_time_ms),
        ("buffering_percentage", dumpOptFloat v.buffering_percentage)]

/-- `VoiceCallData.model_dump()`. -/
def VoiceCallData.dump (v : VoiceCallData) : JVal :=
  .obj [("phone_number", dumpOptStr v.phone_number),
        ("call_duration_seconds", dumpOptFloat v.call_duration_seconds),
        ("call_status", dumpOptStr v.call_status), ("time", dumpOptStr v.time)]

/-- The data slots of `ProcessingContext` that feed `to_dict`. -/
structure ProcessingContext where
  alpha_service : ServiceData := {}
  beta_service : ServiceData := {}
  gamma_service : ServiceData := {}
  alpha_speedtest : List (String × SpeedTestData) := []
  beta_speedtest : List (String × SpeedTestData) := []
  gamma_speedtest : List (String × SpeedTestData) := []
  alpha_video : List (String × VideoTestData) := []
  beta_video : List (String × VideoTestData) := []
  gamma_video : List (String × VideoTestData) := []
  voice_test : List (String × VoiceCallData) := []
  average : List (String × JVal) := []

/-- `ProcessingContext.to_dict()`: the snapshot the mapper resolves
against. -/
def ProcessingContext.to_dict (c : ProcessingContext) : DataMap :=
  [("alpha_service", c.alpha_service.dump),
   ("beta_service", c.beta_service.dump),
   ("gamma_service", c.gamma_service.dump),
   ("alpha_speedtest", .obj (c.alpha_speedtest.map (fun p => (p.fst, p.snd.dump)))),
   ("beta_speedtest", .obj (c.beta_speedtest.map (fun p => (p.fst, p.snd.dump)))),
   ("gamma_speedtest", .obj (c.gamma_speedtest.map (fun p => (p.fst, p.snd.dump)))),
   ("alpha_video", .obj (c.alpha_video.map (fun p => (p.fst, p.snd.dump)))),
   ("beta_video", .obj (c.beta_video.map (fun p => (p.fst, p.snd.dump)))),
   ("gamma_video", .obj (c.gamma_video.map (fun p => (p.fst, p.snd.dump)))),
   ("voice_test", .obj (c.voice_test.map (fun p => (p.fst, p.snd.dump)))),
   ("average", .obj c.average)]

/- ============================================================ -/
/- ======================== theorems ========================== -/
/- ============================================================ -/

/- ----- helper lemmas: strings, digits, splitting ----- -/

theorem dropWhile_all_false {p : Char → Bool} {l : List Char}
    (h : ∀ c ∈ l, p c = false) : l.dropWhile p = l := by
  induction l with
  | nil => rfl
  | cons c t ih =>
      rw [List.dropWhile_cons, h c (List.mem_cons_self c t)]
      simp

theorem pyStrip_eq_self {l : List Char} (h : ∀ c ∈ l, pyIsSpace c = false) :
    pyStrip l = l := by
  unfold pyStrip dropTrailing
  rw [dropWhile_all_false h, dropWhile_all_false, List.reverse_reverse]
  intro c hc
  exact h c (List.mem_reverse.mp hc)

theorem isDigit_not_space {c : Char} (h : c.isDigit = true) : pyIsSpace c = false := by
  by_contra hc
  rw [Bool.not_eq_false] at hc
  have hd : c = ' ' ∨ c = '\t' ∨ c = '\n' ∨ c = '\r' ∨ c = '\x0b' ∨ c = '\x0c' := by
    simpa [pyIsSpace, or_assoc] using hc
  rcases hd with rfl | rfl | rfl | rfl | rfl | rfl <;> exact absurd h (by decide)

theorem isDigit_ne_underscore {c : Char} (h : c.isDigit = true) : c ≠ '_' := by
  intro e; subst e; exact absurd h (by decide)

theorem digitsUCore_all_digits {l : List Char} (h : ∀ c ∈ l, c.isDigit = true) :
    ∀ acc, digitsUCore l acc = some (l.foldl (fun a c => a * 10 + (c.toNat - 48)) acc) := by
  induction l with
  | nil => intro acc; rfl
  | cons c t ih =>
      intro acc
      have hc : c.isDigit = true := h c (List.mem_cons_self c t)
      rw [digitsUCore.eq_def]
      simp only [if_neg (isDigit_ne_underscore hc), if_pos hc]
      rw [ih (fun x hx => h x (List.mem_cons_of_mem c hx))]
      rfl

theorem pyInt?_all_digits {l : List Char} (hne : l ≠ [])
    (h : ∀ c ∈ l, c.isDigit = true) : pyInt? l = some (Int.ofNat (digitsVal l)) := by
  have hs : pyStrip l = l := pyStrip_eq_self (fun c hc => isDigit_not_space (h c hc))
  cases l with
  | nil => exact absurd rfl hne
  | cons c t =>
      have hc : c.isDigit = true := h c (List.mem_cons_self c t)
      have hplus : c ≠ '+' := by intro e; subst e; exact absurd hc (by decide)
      have hminus : c ≠ '-' := by intro e; subst e; exact absurd hc (by decide)
      rw [pyInt?.eq_def, hs]
      simp only [if_neg hplus, if_neg hminus, if_pos hc]
      rw [digitsUCore_all_digits h 0]
      rfl

theorem splitU_ne_nil (l : List Char) : splitU l ≠ [] := by
  cases l with
  | nil => simp [splitU]
  | cons c t =>
      rw [splitU]
      cases h : splitU t with
      | nil => simp
      | cons s rest =>
          dsimp only
          split <;> simp

theorem splitU_no_underscore {l : List Char} (h : '_' ∉ l) : splitU l = [l] := by
  induction l with
  | nil => rfl
  | cons c t ih =>
      have hc : c ≠ '_' := fun e => h (e ▸ List.mem_cons_self c t)
      have ht : '_' ∉ t := fun m => h (List.mem_cons_of_mem c m)
      rw [splitU, ih ht]
      simp [hc]

theorem splitU_append_underscore {a b : List Char} (h : '_' ∉ a) :
    splitU (a ++ '_' :: b) = a :: splitU b := by
  induction a with
  | nil =>
      show splitU ('_' :: b) = [] :: splitU b
      rw [splitU]
      cases hb : splitU b with
      | nil => exact absurd hb (splitU_ne_nil b)
      | cons s rest => simp
  | cons c t ih =>
      have hc : c ≠ '_' := fun e => h (e ▸ List.mem_cons_self c t)
      have ht : '_' ∉ t := fun m => h (List.mem_cons_of_mem c m)
      show splitU (c :: (t ++ '_' :: b)) = (c :: t) :: splitU b
      rw [splitU, ih ht]
      simp [hc]

/- ----- C5: routing determinism ----- -/

/-- C5: for every well-formed identifier `sector ++ "_image_" ++ digits`
(sector without underscores, suffix a digit string), routing is a pure
function of the identifier assigning exactly one outcome by the fixed
table: sector "voicetest" → Voice regardless of suffix; suffix 1–2 →
Service pair; 3–7 → Speed; 8 → Video; anything else → explicit skip. -/
theorem c5_routing_deterministic_table (sector sfx : List Char)
    (hu : '_' ∉ sector) (hd1 : sfx ≠ []) (hd2 : ∀ c ∈ sfx, c.isDigit = true) :
    routeImageName (sector ++ '_' :: ("image".data ++ '_' :: sfx)) =
      (if sector = "voicetest".data then Route.voice
       else if digitsVal sfx = 1 ∨ digitsVal sfx = 2 then Route.servicePair
       else if 3 ≤ digitsVal sfx ∧ digitsVal sfx ≤ 7 then Route.speed
       else if digitsVal sfx = 8 then Route.video
       else Route.skipUnmatched) := by
  have hnu : '_' ∉ sfx := fun m => isDigit_ne_underscore (hd2 _ m) rfl
  have hparts : splitU (sector ++ '_' :: ("image".data ++ '_' :: sfx)) =
      [sector, "image".data, sfx] := by
    rw [splitU_append_underscore hu, splitU_append_underscore (by decide),
      splitU_no_underscore hnu]
  have hok : nameStructureOk (sector ++ '_' :: ("image".data ++ '_' :: sfx)) = true := by
    unfold nameStructureOk
    rw [hparts]
    simp [List.getD]
  unfold routeImageName
  rw [if_pos hok, hparts]
  simp only [List.getD, List.get?, Option.getD_some]
  rw [pyInt?_all_digits hd1 hd2]
  dsimp only
  simp only [Int.ofNat_eq_natCast]
  norm_cast

/-- C5 witness: the table at the claim's concrete examples. -/
theorem c5_routing_deterministic_table_witness :
    routeImageName "alpha_image_4".data = Route.speed ∧
    routeImageName "gamma_image_8".data = Route.video ∧
    routeImageName "voicetest_image_1".data = Route.voice ∧
    routeImageName "beta_image_9".data = Route.skipUnmatched := by
  refine ⟨?_, ?_, ?_, ?_⟩
  · have h := c5_routing_deterministic_table "alpha".data "4".data
      (by decide) (by decide) (by decide)
    exact (by decide : routeImageName "alpha_image_4".data =
      routeImageName ("alpha".data ++ '_' :: ("image".data ++ '_' :: "4".data))).trans
      (h.trans (by decide))
  · have h := c5_routing_deterministic_table "gamma".data "8".data
      (by decide) (by decide) (by decide)
    exact (by decide : routeImageName "gamma_image_8".data =
      routeImageName ("gamma".data ++ '_' :: ("image".data ++ '_' :: "8".data))).trans
      (h.trans (by decide))
  · have h := c5_routing_deterministic_table "voicetest".data "1".data
      (by decide) (by decide) (by decide)
    exact (by decide : routeImageName "voicetest_image_1".data =
      routeImageName ("voicetest".data ++ '_' :: ("image".data ++ '_' :: "1".data))).trans
      (h.trans (by decide))
  · have h := c5_routing_deterministic_table "beta".data "9".data
      (by decide) (by decide) (by decide)
    exact (by decide : routeImageName "beta_image_9".data =
      routeImageName ("beta".data ++ '_' :: ("image".data ++ '_' :: "9".data))).trans
      (h.trans (by decide))

/- ----- C3: routing skip logging ----- -/

/-- C3 counterexample: `weird_name` does not match the
`\x7bsector\x7d_image_\x7binteger\x7d` shape and is excluded from all
pipelines, but the routing loop's `else: pass` branch emits no log entry
at all — the skip is a silent drop, contradicting the claim that every
such exclusion is observable in the log. -/
theorem c3_weird_name_skipped_silently :
    matchesShape "weird_name".data = false ∧
    (routeImageName "weird_name".data).isSkip = true ∧
    routeWarnings "weird_name".data = [] := by
  refine ⟨by decide, by decide, by decide⟩

/-- C3 amended: a warning is logged exactly for the two warned skip
outcomes — a structurally well-shaped name whose suffix is not an
integer, or a well-formed name whose suffix matches no pipeline; names
without the `..._image_...` structure (e.g. `weird_name`) are excluded
silently, with no log entry. -/
theorem c3_skip_warning_characterization (name : List Char) :
    (!(routeWarnings name).isEmpty) =
      ((routeImageName name == Route.skipBadInt) ||
       (routeImageName name == Route.skipUnmatched)) := by
  unfold routeWarnings routeImageName
  by_cases h1 : nameStructureOk name
  · rw [if_pos h1, if_pos h1]
    cases h2 : pyInt? ((splitU name).getD 2 []) with
    | none => rfl
    | some n =>
        dsimp only
        split_ifs <;> rfl
  · rw [if_neg h1, if_neg h1]
    rfl

/- ----- C4: transport two-attempt policy ----- -/

/-- C4: the transport call's two-attempt policy.  A 4xx other than 429 on
attempt 1 is raised immediately — one attempt, 60s timeout, no backoff,
no 120s attempt.  A timeout or connection failure on attempt 1 leads to
exactly one retry: a 2s backoff then attempt 2 with a 120s timeout; a
second timeout/connection failure propagates as the final error.  HTTP
429 and 5xx responses are retried within the same two-attempt budget. -/
theorem c4_transport_two_attempt_policy (out : Nat → Outcome) :
    (∀ c, 400 ≤ c → c < 500 → c ≠ 429 → out 0 = .httpErr c →
      post_chat_completion out = ([.attempt 60], .raisedHttp c)) ∧
    (out 0 = .timeoutErr ∨ out 0 = .connErr →
      post_chat_completion out =
        (.attempt 60 :: .backoff 2 :: (postChatGo out 1 [120]).1,
         (postChatGo out 1 [120]).2) ∧
      (out 1 = .timeoutErr → postChatGo out 1 [120] = ([.attempt 120], .raisedTimeout)) ∧
      (out 1 = .connErr → postChatGo out 1 [120] = ([.attempt 120], .raisedConn)) ∧
      (out 1 = .ok → postChatGo out 1 [120] = ([.attempt 120], .success))) ∧
    (∀ c, c = 429 ∨ 500 ≤ c → out 0 = .httpErr c →
      post_chat_completion out =
        (.attempt 60 :: .backoff 2 :: (postChatGo out 1 [120]).1,
         (postChatGo out 1 [120]).2)) := by
  refine ⟨?_, ?_, ?_⟩
  · intro c h1 h2 h3 h4
    unfold post_chat_completion
    rw [postChatGo.eq_def, h4]
    simp only [if_pos (And.intro h1 (And.intro h2 h3))]
  · intro h
    refine ⟨?_, ?_, ?_, ?_⟩
    · unfold post_chat_completion
      rcases h with h | h <;>
        · rw [postChatGo.eq_def, h]
          simp only [List.isEmpty_cons, if_neg (by decide : ¬((false : Bool) = true))]
    · intro h1
      rw [postChatGo.eq_def, h1]
      simp
    · intro h1
      rw [postChatGo.eq_def, h1]
      simp
    · intro h1
      rw [postChatGo.eq_def, h1]
  · intro c hc h4
    have hterm : ¬(400 ≤ c ∧ c < 500 ∧ c ≠ 429) := by
      rcases hc with rfl | hc
      · simp
      · omega
    unfold post_chat_completion
    rw [postChatGo.eq_def, h4]
    simp only [if_neg hterm, List.isEmpty_cons, if_neg (by decide : ¬((false : Bool) = true))]

/-- C4 witness: the policy at concrete outcome traces — a 404 fails fast
with a single 60s attempt; a double timeout does 60s, 2s backoff, 120s,
then raises; a 500 then 200 succeeds on the retry. -/
theorem c4_transport_two_attempt_policy_witness :
    post_chat_completion (fun _ => .httpErr 404) = ([.attempt 60], .raisedHttp 404) ∧
    post_chat_completion (fun _ => .timeoutErr) =
      ([.attempt 60, .backoff 2, .attempt 120], .raisedTimeout) ∧
    post_chat_completion (fun i => if i = 0 then .httpErr 500 else .ok) =
      ([.attempt 60, .backoff 2, .attempt 120], .success) := by
  refine ⟨?_, ?_, ?_⟩
  · exact (c4_transport_two_attempt_policy (fun _ => .httpErr 404)).1 404
      (by decide) (by decide) (by decide) rfl
  · have h := (c4_transport_two_attempt_policy (fun _ => .timeoutErr)).2.1 (Or.inl rfl)
    have h1 := h.1
    rw [h.2.1 rfl] at h1
    simpa using h1
  · have h := (c4_transport_two_attempt_policy (fun i => if i = 0 then .httpErr 500 else .ok)).2.2
      500 (Or.inr (by decide)) rfl
    rw [(by rfl : postChatGo (fun i => if i = 0 then Outcome.httpErr 500 else Outcome.ok) 1 [120] =
      ([.attempt 120], .success))] at h
    simpa using h

/- ----- C1: no fast local parse; reasoning stage always runs ----- -/

/-- C1 counterexample: the OCR stage returns a vision output that is a
complete schema-conformant JSON record with zero null fields, yet the
Speed pipeline still performs a second model call (the reasoning stage):
`extractor.py` contains no local API-free parse at all. -/
theorem c1_complete_output_still_second_call :
    specFastParseCompleteSpeed
      "\x7b\"download_mbps\": 100, \"upload_mbps\": 50, \"ping_ms\": 10, \"jitter_ms\": 2\x7d" = true ∧
    (analyze_speed_test
      (.gotText "\x7b\"download_mbps\": 100, \"upload_mbps\": 50, \"ping_ms\": 10, \"jitter_ms\": 2\x7d")
      .failed).1 = [.call "ocr", .call "reasoning"] := by
  constructor
  · decide
  · decide

/-- C1 amended: the single-image pipelines have no local fast path.
Whenever the first (OCR/vision) stage yields any text, the reasoning
stage is invoked unconditionally — regardless of how complete the text
is — so every successful run makes exactly two model calls; when the
first stage yields no text, the pipeline returns no record and makes no
reasoning call. -/
theorem c1_single_image_always_reasoning (t : String) (orx : ReasonOutcome) :
    (t ≠ "" →
      (analyze_speed_test (.gotText t) orx).1 = [.call "ocr", .call "reasoning"] ∧
      (analyze_video_test (.gotText t) orx).1 = [.call "ocr", .call "reasoning"] ∧
      (analyze_voice_call (.gotText t) orx).1 = [.call "vision", .call "reasoning"]) ∧
    (analyze_speed_test .noText orx = ([.call "ocr"], none)) ∧
    (analyze_video_test .requestFailed orx = ([.call "ocr"], none)) ∧
    (analyze_voice_call .requestFailed orx = ([.call "vision"], none)) := by
  constructor
  · intro h
    refine ⟨?_, ?_, ?_⟩ <;> cases orx <;>
      simp [analyze_speed_test, analyze_video_test, analyze_voice_call,
        paddle_ocr, vision_extract, post_reasoning_completion, strFalsy, h]
  · refine ⟨?_, ?_, ?_⟩ <;> cases orx <;>
      simp [analyze_speed_test, analyze_video_test, analyze_voice_call,
        paddle_ocr, vision_extract, post_reasoning_completion, strFalsy]

/-- C1 witness: at the complete zero-null vision output, the reasoning
call still happens in all three single-image pipelines. -/
theorem c1_single_image_always_reasoning_witness :
    (analyze_speed_test
      (.gotText "\x7b\"download_mbps\": 100, \"upload_mbps\": 50, \"ping_ms\": 10, \"jitter_ms\": 2\x7d")
      .failed).1 = [.call "ocr", .call "reasoning"] ∧
    (analyze_voice_call (.gotText "call screen text") .failed).1 =
      [.call "vision", .call "reasoning"] := by
  constructor
  · exact ((c1_single_image_always_reasoning
      "\x7b\"download_mbps\": 100, \"upload_mbps\": 50, \"ping_ms\": 10, \"jitter_ms\": 2\x7d"
      .failed).1 (by decide)).1
  · exact ((c1_single_image_always_reasoning "call screen text" .failed).1 (by decide)).2.2

/- ----- C9: no pacing delay between successive calls ----- -/

/-- C9 counterexample: the Service pipeline issues its two OCR calls to
the same provider back to back, with no pause between them (and none
before the reasoning call): the pacing discipline the claim asserts does
not hold. -/
theorem c9_back_to_back_calls_no_pause :
    (analyze_service_images (.gotText "a") (.gotText "b") .failed).1 =
      [.call "ocr", .call "ocr", .call "reasoning"] ∧
    pacedOk (analyze_service_images (.gotText "a") (.gotText "b") .failed).1 none = false := by
  exact ⟨rfl, rfl⟩

/-- C9 amended: no pacing delay exists anywhere in the pipelines — no
pipeline trace ever contains a sleep event, for any stage outcomes; the
only sleep in the system is the transport layer's 2s retry backoff
inside a single call. -/
theorem c9_no_pacing_delay (o1 o2 oc : PaddleOutcome) (ov : VisionOutcome)
    (orx : ReasonOutcome) :
    ((analyze_service_images o1 o2 orx).1.all (fun e => !e.isWait)) = true ∧
    ((analyze_speed_test oc orx).1.all (fun e => !e.isWait)) = true ∧
    ((analyze_video_test oc orx).1.all (fun e => !e.isWait)) = true ∧
    ((analyze_voice_call ov orx).1.all (fun e => !e.isWait)) = true := by
  refine ⟨?_, ?_, ?_, ?_⟩ <;>
    first
    | (cases o1 <;> cases o2 <;> cases orx <;>
        simp [analyze_service_images, paddle_ocr, post_reasoning_completion,
          strFalsy, ExtEvent.isWait] <;> split_ifs <;> simp [ExtEvent.isWait])
    | (cases oc <;> cases orx <;>
        simp [analyze_speed_test, analyze_video_test, paddle_ocr,
          post_reasoning_completion, strFalsy, ExtEvent.isWait] <;> split_ifs <;>
          simp [ExtEvent.isWait])
    | (cases ov <;> cases orx <;>
        simp [analyze_voice_call, vision_extract, post_reasoning_completion,
          strFalsy, ExtEvent.isWait] <;> split_ifs <;> simp [ExtEvent.isWait])

/- ----- C6: clean_json_response ----- -/

theorem dropWhile_append_all_true {p : Char → Bool} {l1 l2 : List Char}
    (h : ∀ c ∈ l1, p c = true) : (l1 ++ l2).dropWhile p = l2.dropWhile p := by
  induction l1 with
  | nil => rfl
  | cons c t ih =>
      rw [List.cons_append, List.dropWhile_cons, h c (List.mem_cons_self c t)]
      exact ih (fun x hx => h x (List.mem_cons_of_mem c hx))

theorem pyStrip_eq_self_of_ends {l : List Char}
    (h1 : ∀ c, l.head? = some c → pyIsSpace c = false)
    (h2 : ∀ c, l.getLast? = some c → pyIsSpace c = false) : pyStrip l = l := by
  cases l with
  | nil => rfl
  | cons c t =>
      unfold pyStrip dropTrailing
      rw [List.dropWhile_cons, h1 c rfl]
      simp only [if_false, Bool.false_eq_true]
      cases hr : (c :: t).reverse with
      | nil => exact absurd (congrArg List.length hr) (by simp)
      | cons d r =>
          have hd : (c :: t).getLast? = some d := by
            rw [← List.head?_reverse, hr]; rfl
          rw [List.dropWhile_cons, h2 d hd]
          simp only [if_false, Bool.false_eq_true]
          rw [← hr, List.reverse_reverse]

theorem braceSpan?_semantics {a b c : List Char}
    (h1 : '{' ∉ a) (h2 : '}' ∉ c) :
    braceSpan? (a ++ '{' :: (b ++ '}' :: c)) = some ('{' :: (b ++ ['}'])) := by
  induction a with
  | nil =>
      rw [List.nil_append, braceSpan?]
      have hcontains : (b ++ '}' :: c).contains '}' = true := by
        simp [List.contains_eq_any_beq]
      rw [if_pos ⟨rfl, hcontains⟩]
      congr 1
      have hrev : (b ++ '}' :: c).reverse = c.reverse ++ '}' :: b.reverse := by
        simp
      rw [hrev, dropWhile_append_all_true (fun x hx => by
        have : x ≠ '}' := fun e => h2 (e ▸ List.mem_reverse.mp hx)
        simpa using this)]
      rw [List.dropWhile_cons]
      simp
  | cons x a' ih =>
      have hx : x ≠ '{' := fun e => h1 (e ▸ List.mem_cons_self x a')
      have ha' : '{' ∉ a' := fun m => h1 (List.mem_cons_of_mem x m)
      rw [List.cons_append, braceSpan?, if_neg (fun hp => hx hp.1)]
      exact ih ha'

/-- C6 counterexample: on `\x7b"a": 1\x7d and \x7b"b": 2\x7d` the function does
not return the first balanced brace block `\x7b"a": 1\x7d`; it returns the
greedy span from the first `\x7b` to the last `\x7d`.  And on `**Key**: 5`,
which contains no brace block at all, it does not return the empty-object
sentinel: the markdown fallback produces a non-empty object. -/
theorem c6_not_first_balanced_block :
    clean_json_response "\x7b\"a\": 1\x7d and \x7b\"b\": 2\x7d" =
      "\x7b\"a\": 1\x7d and \x7b\"b\": 2\x7d" ∧
    clean_json_response "\x7b\"a\": 1\x7d and \x7b\"b\": 2\x7d" ≠ "\x7b\"a\": 1\x7d" ∧
    clean_json_response "**Key**: 5" = "\x7b\"key\": 5\x7d" := by
  refine ⟨by decide, by decide, by decide⟩

/-- C6 amended: `clean_json_response` extracts the greedy brace span —
from the first `\x7b` that is followed by a later `\x7d`, through the last
`\x7d` of the entire text — rather than the first balanced block; when no
such brace pair exists it attempts a markdown-bullet fallback, and it
returns the empty-object sentinel only when that fallback also finds
nothing. -/
theorem c6_clean_json_response_behavior (a b c : List Char) (s : String) :
    ('{' ∉ a → '}' ∉ c →
      clean_json_response (String.mk (a ++ '{' :: (b ++ '}' :: c))) =
        String.mk ('{' :: (b ++ ['}']))) ∧
    (braceSpan? s.data = none → mdFallback s.data = [] →
      clean_json_response s = "\x7b\x7d") ∧
    (braceSpan? s.data = none → mdFallback s.data ≠ [] →
      clean_json_response s = jsonDumps (.obj (mdFallback s.data))) := by
  refine ⟨?_, ?_, ?_⟩
  · intro h1 h2
    have hne : String.mk (a ++ '{' :: (b ++ '}' :: c)) ≠ "" := by
      intro e
      have hd := congrArg String.data e
      simp at hd
    unfold clean_json_response
    rw [if_neg hne]
    show (match braceSpan? (a ++ '{' :: (b ++ '}' :: c)) with
      | some m => String.mk (pyStrip m)
      | none => _) = _
    rw [braceSpan?_semantics h1 h2]
    dsimp only
    have hstrip : pyStrip ('{' :: (b ++ ['}'])) = '{' :: (b ++ ['}']) := by
      refine pyStrip_eq_self_of_ends ?_ ?_
      · intro x hx
        cases hx
        decide
      · intro x hx
        rw [List.getLast?_cons, List.getLast?_concat] at hx
        simp at hx
        subst hx
        decide
    rw [hstrip]
  · intro hb hf
    by_cases hs : s = ""
    · rw [hs]; rfl
    · unfold clean_json_response
      rw [if_neg hs]
      show (match braceSpan? s.data with
        | some m => String.mk (pyStrip m)
        | none => _) = _
      rw [hb]
      simp [hf]
  · intro hb hf
    have hs : s ≠ "" := by
      intro e
      subst e
      exact hf rfl
    unfold clean_json_response
    rw [if_neg hs]
    show (match braceSpan? s.data with
      | some m => String.mk (pyStrip m)
      | none => _) = _
    rw [hb]
    simp [List.isEmpty_iff, hf]

/-- C6 witness: the amended behavior at concrete inputs — a greedy span,
a sentinel case, and a markdown-fallback case. -/
theorem c6_clean_json_response_behavior_witness :
    clean_json_response "pre \x7bxy\x7d mid \x7bzw\x7d post" = "\x7bxy\x7d mid \x7bzw\x7d" ∧
    clean_json_response "no braces at all" = "\x7b\x7d" ∧
    clean_json_response "**Key**: 5" = "\x7b\"key\": 5\x7d" := by
  refine ⟨?_, ?_, ?_⟩
  · have h := (c6_clean_json_response_behavior "pre ".data "xy\x7d mid \x7bzw".data
      " post".data "x").1 (by decide) (by decide)
    have heq : ("pre \x7bxy\x7d mid \x7bzw\x7d post" : String) =
        String.mk ("pre ".data ++ '{' :: ("xy\x7d mid \x7bzw".data ++ '}' :: " post".data)) := by
      decide
    rw [heq]
    exact h.trans (by decide)
  · exact (c6_clean_json_response_behavior [] [] [] "no braces at all").2.1
      (by decide) rfl
  · have h := (c6_clean_json_response_behavior [] [] [] "**Key**: 5").2.2
      (by decide)
      (by intro e; exact absurd (congrArg List.length e) (by decide))
    exact h.trans (by decide)

/- ----- C7: no fabricated defaults ----- -/

theorem mem_of_mem_pyStrip {x : Char} {l : List Char} (h : x ∈ pyStrip l) : x ∈ l := by
  unfold pyStrip dropTrailing at h
  rw [List.mem_reverse] at h
  have h2 := List.dropWhile_subset _ h
  rw [List.mem_reverse] at h2
  exact List.dropWhile_subset _ h2

theorem mem_of_mem_pyStripChars {x : Char} {cs l : List Char}
    (h : x ∈ pyStripChars cs l) : x ∈ l := by
  unfold pyStripChars dropTrailing at h
  rw [List.mem_reverse] at h
  have h2 := List.dropWhile_subset _ h
  rw [List.mem_reverse] at h2
  exact List.dropWhile_subset _ h2

theorem numCore_no_digit {l : List Char} (h : ∀ c ∈ l, c.isDigit = false) :
    numCore l = none := by
  cases l with
  | nil => rfl
  | cons c t =>
      have hc := h c (List.mem_cons_self c t)
      simp [numCore, hc]

theorem numTokenAt_no_digit {l : List Char} (h : ∀ c ∈ l, c.isDigit = false) :
    numTokenAt l = none := by
  rw [numTokenAt.eq_def]
  split
  · rename_i t
    rw [numCore_no_digit (fun c hc => h c (List.mem_cons_of_mem '-' hc))]
  · exact numCore_no_digit h

theorem searchNumber_no_digit {l : List Char} (h : ∀ c ∈ l, c.isDigit = false) :
    searchNumber l = none := by
  induction l with
  | nil => rfl
  | cons c t ih =>
      rw [searchNumber, numTokenAt_no_digit h]
      exact ih (fun x hx => h x (List.mem_cons_of_mem c hx))


/-- C7: no fabricated defaults.  (i) A value without any digit —
unparsable as a number — is cleaned to null, never to a sentinel number;
(ii) `None` stays null through cleaning; (iii) a record built from an
empty field set has every field null (the declared defaults); (iv) for a
record that validates, every schema field absent from the parsed data is
null in the record, not a default zero. -/
theorem c7_no_fabricated_defaults (s : List Char) (data : List (String × JVal))
    (r : SpeedTestData) :
    ((∀ c ∈ s, c.isDigit = false) → clean_number (.str (String.mk s)) = .null) ∧
    clean_number .null = .null ∧
    mkSpeedTestData [] = some ⟨none, none, none, none⟩ ∧
    (mkSpeedTestData data = some r →
      (data.find? (fun p => p.fst = "download_mbps") = none → r.download_mbps = none) ∧
      (data.find? (fun p => p.fst = "upload_mbps") = none → r.upload_mbps = none) ∧
      (data.find? (fun p => p.fst = "ping_ms") = none → r.ping_ms = none) ∧
      (data.find? (fun p => p.fst = "jitter_ms") = none → r.jitter_ms = none)) := by
  refine ⟨?_, rfl, rfl, ?_⟩
  · intro h
    unfold clean_number
    dsimp only
    have hs : searchNumber (pyStripChars ['\'', '"'] (pyStrip (String.mk s).data)) = none := by
      refine searchNumber_no_digit (fun c hc => ?_)
      exact h c (mem_of_mem_pyStrip (mem_of_mem_pyStripChars hc))
    rw [hs]
  · intro hmk
    refine ⟨?_, ?_, ?_, ?_⟩ <;>
      · intro hfind
        simp only [mkSpeedTestData, fieldOptFloat, assocGet, hfind, Option.map_none',
          Option.bind_eq_bind, Option.bind_eq_some, Option.some_inj, Option.pure_def] at hmk
        obtain ⟨d, hd, u, hu, p, hp, j, hj, hr⟩ := hmk
        subst hr
        simp_all

/-- C7 witness: `"Mbps"` has no digits and cleans to null; a record parsed
from data containing only `download_mbps` validates with the other three
fields null, not zero. -/
theorem c7_no_fabricated_defaults_witness :
    clean_number (.str "Mbps") = .null ∧
    mkSpeedTestData [("download_mbps", .num (.int 5))] =
      some ⟨some 5, none, none, none⟩ ∧
    (∀ r, mkSpeedTestData [("download_mbps", .num (.int 5))] = some r →
      r.upload_mbps = none) := by
  refine ⟨?_, rfl, ?_⟩
  · exact (c7_no_fabricated_defaults "Mbps".data [] ⟨none, none, none, none⟩).1 (by decide)
  · intro r hr
    exact (((c7_no_fabricated_defaults [] [("download_mbps", .num (.int 5))] r).2.2.2
      hr).2.1) rfl

/- ----- C8: case/punctuation-insensitive key matching ----- -/

theorem stepKey_congr {kvs : List (String × JVal)} {k1 k2 : List Char}
    (h : normalize_name k1 = normalize_name k2) : stepKey kvs k1 = stepKey kvs k2 := by
  unfold stepKey
  simp only [h]

theorem normMapGet_congr {dm : DataMap} {b1 b2 : List Char}
    (h : normalize_name b1 = normalize_name b2) : normMapGet dm b1 = normMapGet dm b2 := by
  unfold normMapGet
  simp only [h]

theorem walkKeys_congr : ∀ (ks1 ks2 : List (List Char)) (v : JVal),
    ks1.map normalize_name = ks2.map normalize_name → walkKeys v ks1 = walkKeys v ks2 := by
  intro ks1
  induction ks1 with
  | nil =>
      intro ks2 v h
      cases ks2 with
      | nil => rfl
      | cons k2 t2 => simp at h
  | cons k t ih =>
      intro ks2 v h
      cases ks2 with
      | nil => simp at h
      | cons k2 t2 =>
          rw [List.map_cons, List.map_cons, List.cons_eq_cons] at h
          cases v with
          | obj kvs =>
              rw [walkKeys, walkKeys, stepKey_congr h.1]
              cases hs : stepKey kvs k2 with
              | none => rfl
              | some v2 => exact ih t2 v2 h.2
          | null => rfl
          | bool b => rfl
          | num n => rfl
          | str s => rfl
          | arr items => rfl

/-- C8: expression resolution matches the top-level identifier and every
bracket-accessor key by normalized comparison (strip non-alphanumerics,
lowercase): two expressions whose identifier and keys differ only in case
and punctuation resolve to the same stored value, for every snapshot. -/
theorem c8_normalized_key_matching (dm : DataMap) (e1 e2 b1 b2 r1 r2 : List Char)
    (h1 : matchExprRe (pyStrip e1) = some (b1, r1))
    (h2 : matchExprRe (pyStrip e2) = some (b2, r2))
    (hb : normalize_name b1 = normalize_name b2)
    (hk : (bracketKeys r1).map normalize_name = (bracketKeys r2).map normalize_name) :
    resolve_expression dm e1 = resolve_expression dm e2 := by
  unfold resolve_expression
  dsimp only
  rw [h1, h2]
  dsimp only
  rw [normMapGet_congr hb]
  cases hg : normMapGet dm b2 with
  | none => rfl
  | some bk =>
      dsimp only
      by_cases hbk : bk = ""
      · rw [if_pos hbk, if_pos hbk]
      · rw [if_neg hbk, if_neg hbk]
        cases ha : assocGet dm bk with
        | none => rfl
        | some v0 => exact walkKeys_congr _ _ v0 hk

/-- C8 witness: `Download Mbps`, `download_mbps` and `DOWNLOAD-MBPS` (and
a case/punctuation variant of the identifier) all resolve to the same
stored value, -85, in a concrete run-context snapshot. -/
theorem c8_normalized_key_matching_witness :
    resolve_expression (ProcessingContext.to_dict
        { alpha_service := { nr5g_rsrp := some (-85) } })
      "alpha_service['nr5g_rsrp']".data =
    resolve_expression (ProcessingContext.to_dict
        { alpha_service := { nr5g_rsrp := some (-85) } })
      "AlphaService[\"NR5G RSRP\"]".data ∧
    resolve_expression (ProcessingContext.to_dict
        { alpha_service := { nr5g_rsrp := some (-85) } })
      "alpha_service['nr5g_rsrp']".data = .num (.float (-85)) := by
  constructor
  · exact c8_normalized_key_matching
      (ProcessingContext.to_dict { alpha_service := { nr5g_rsrp := some (-85) } })
      "alpha_service['nr5g_rsrp']".data "AlphaService[\"NR5G RSRP\"]".data
      "alpha_service".data "AlphaService".data
      "['nr5g_rsrp']".data "[\"NR5G RSRP\"]".data
      (by decide) (by decide) (by decide) (by decide)
  · rfl

/- ----- C2 / C10: the mapping pass ----- -/

theorem scanGo_eq_outcomes (dm : DataMap) :
    ∀ (order : List Nat) (doc doc' : List Cell),
      order.Nodup → (∀ i ∈ order, doc'.get? i = doc.get? i) →
      scanGo dm order doc' =
        (foldSet doc' (scanOutcomes dm doc order).1,
         (scanOutcomes dm doc order).2.1,
         (scanOutcomes dm doc order).2.2) := by
  intro order
  induction order with
  | nil => intro doc doc' _ _; rfl
  | cons i rest ih =>
      intro doc doc' hnd hag
      have hagi : doc'.get? i = doc.get? i := hag i (List.mem_cons_self i rest)
      have hnir : i ∉ rest := (List.nodup_cons.mp hnd).1
      have hndr : rest.Nodup := (List.nodup_cons.mp hnd).2
      have hagr : ∀ j ∈ rest, doc'.get? j = doc.get? j :=
        fun j hj => hag j (List.mem_cons_of_mem i hj)
      rw [scanGo, hagi, scanOutcomes]
      cases hc : doc.get? i with
      | none =>
          dsimp only
          rw [ih doc doc' hndr hagr]
      | some c =>
          dsimp only
          by_cases hm : cellIsMarked c
          · rw [if_pos hm, if_pos hm]
            by_cases hv : (resolve_expression dm (cellExpr c)).isNull
            · rw [if_pos hv, if_pos hv]
              have hag2 : ∀ j ∈ rest,
                  (doc'.set i (setVal c (.str "NULL"))).get? j = doc.get? j := by
                intro j hj
                have hij : i ≠ j := fun e => hnir (by rw [e]; exact hj)
                rw [List.get?_set_ne _ _ hij, hagr j hj]
              rw [ih doc (doc'.set i (setVal c (.str "NULL"))) hndr hag2]
              rfl
            · rw [if_neg hv, if_neg hv]
              rw [ih doc doc' hndr hagr]
          · rw [if_neg hm, if_neg hm]
            rw [ih doc doc' hndr hagr]

theorem scanOutcomes_nullIdx_sublist (dm : DataMap) (doc : List Cell) :
    ∀ order : List Nat, ((scanOutcomes dm doc order).1.map Prod.fst).Sublist order := by
  intro order
  induction order with
  | nil => exact List.Sublist.refl _
  | cons i rest ih =>
      rw [scanOutcomes]
      cases hc : doc.get? i with
      | none => exact ih.cons i
      | some c =>
          dsimp only
          by_cases hm : cellIsMarked c
          · rw [if_pos hm]
            by_cases hv : (resolve_expression dm (cellExpr c)).isNull
            · rw [if_pos hv]
              exact ih.cons₂ i
            · rw [if_neg hv]
              exact ih.cons i
          · rw [if_neg hm]
            exact ih.cons i

theorem scanOutcomes_upIdx_sublist (dm : DataMap) (doc : List Cell) :
    ∀ order : List Nat, ((scanOutcomes dm doc order).2.1.map Prod.fst).Sublist order := by
  intro order
  induction order with
  | nil => exact List.Sublist.refl _
  | cons i rest ih =>
      rw [scanOutcomes]
      cases hc : doc.get? i with
      | none => exact ih.cons i
      | some c =>
          dsimp only
          by_cases hm : cellIsMarked c
          · rw [if_pos hm]
            by_cases hv : (resolve_expression dm (cellExpr c)).isNull
            · rw [if_pos hv]
              exact ih.cons i
            · rw [if_neg hv]
              exact ih.cons₂ i
          · rw [if_neg hm]
            exact ih.cons i

theorem scanOutcomes_null_mem (dm : DataMap) (doc : List Cell) :
    ∀ order : List Nat, order.Nodup → ∀ j c, j ∈ order → doc.get? j = some c →
      cellIsMarked c = true → (resolve_expression dm (cellExpr c)).isNull = true →
      (j, setVal c (.str "NULL")) ∈ (scanOutcomes dm doc order).1 ∧
      j ∉ (scanOutcomes dm doc order).2.1.map Prod.fst := by
  intro order
  induction order with
  | nil => intro _ j c hj; exact absurd hj (List.not_mem_nil j)
  | cons i rest ih =>
      intro hnd j c hj hc hm hv
      have hnir : i ∉ rest := (List.nodup_cons.mp hnd).1
      have hndr : rest.Nodup := (List.nodup_cons.mp hnd).2
      rw [scanOutcomes]
      rcases List.mem_cons.mp hj with rfl | hjr
      · rw [hc]
        dsimp only
        rw [if_pos hm, if_pos hv]
        constructor
        · exact List.mem_cons_self _ _
        · intro hmem
          exact hnir ((scanOutcomes_upIdx_sublist dm doc rest).mem hmem)
      · have hji : j ≠ i := fun e => hnir (e ▸ hjr)
        obtain ⟨h1, h2⟩ := ih hndr j c hjr hc hm hv
        cases hci : doc.get? i with
        | none => exact ⟨h1, h2⟩
        | some ci =>
            dsimp only
            by_cases hmi : cellIsMarked ci
            · rw [if_pos hmi]
              by_cases hvi : (resolve_expression dm (cellExpr ci)).isNull
              · rw [if_pos hvi]
                exact ⟨List.mem_cons_of_mem _ h1, h2⟩
              · rw [if_neg hvi]
                refine ⟨h1, ?_⟩
                intro hmem
                rcases List.mem_cons.mp hmem with he | hmem2
                · exact hji he
                · exact h2 hmem2
            · rw [if_neg hmi]
              exact ⟨h1, h2⟩

theorem scanOutcomes_up_mem (dm : DataMap) (doc : List Cell) :
    ∀ order : List Nat, order.Nodup → ∀ j c, j ∈ order → doc.get? j = some c →
      cellIsMarked c = true → (resolve_expression dm (cellExpr c)).isNull = false →
      (j, resolve_expression dm (cellExpr c)) ∈ (scanOutcomes dm doc order).2.1 ∧
      j ∉ (scanOutcomes dm doc order).1.map Prod.fst := by
  intro order
  induction order with
  | nil => intro _ j c hj; exact absurd hj (List.not_mem_nil j)
  | cons i rest ih =>
      intro hnd j c hj hc hm hv
      have hnir : i ∉ rest := (List.nodup_cons.mp hnd).1
      have hndr : rest.Nodup := (List.nodup_cons.mp hnd).2
      rw [scanOutcomes]
      rcases List.mem_cons.mp hj with rfl | hjr
      · rw [hc]
        dsimp only
        rw [if_pos hm, if_neg (by rw [hv]; exact Bool.false_ne_true)]
        constructor
        · exact List.mem_cons_self _ _
        · intro hmem
          exact hnir ((scanOutcomes_nullIdx_sublist dm doc rest).mem hmem)
      · have hji : j ≠ i := fun e => hnir (e ▸ hjr)
        obtain ⟨h1, h2⟩ := ih hndr j c hjr hc hm hv
        cases hci : doc.get? i with
        | none => exact ⟨h1, h2⟩
        | some ci =>
            dsimp only
            by_cases hmi : cellIsMarked ci
            · rw [if_pos hmi]
              by_cases hvi : (resolve_expression dm (cellExpr ci)).isNull
              · rw [if_pos hvi]
                refine ⟨h1, ?_⟩
                intro hmem
                rcases List.mem_cons.mp hmem with he | hmem2
                · exact hji he
                · exact h2 hmem2
              · rw [if_neg hvi]
                exact ⟨List.mem_cons_of_mem _ h1, h2⟩
            · rw [if_neg hmi]
              exact ⟨h1, h2⟩

theorem scanOutcomes_unmarked (dm : DataMap) (doc : List Cell) :
    ∀ order : List Nat, ∀ j c, doc.get? j = some c →
      cellIsMarked c = false →
      j ∉ (scanOutcomes dm doc order).1.map Prod.fst ∧
      j ∉ (scanOutcomes dm doc order).2.1.map Prod.fst := by
  intro order
  induction order with
  | nil => intro j c _ _; exact ⟨List.not_mem_nil j, List.not_mem_nil j⟩
  | cons i rest ih =>
      intro j c hc hm
      obtain ⟨h1, h2⟩ := ih j c hc hm
      rw [scanOutcomes]
      by_cases hij : i = j
      · subst hij
        rw [hc]
        dsimp only
        rw [if_neg (by rw [hm]; exact Bool.false_ne_true)]
        exact ⟨h1, h2⟩
      · cases hci : doc.get? i with
        | none => exact ⟨h1, h2⟩
        | some ci =>
            dsimp only
            by_cases hmi : cellIsMarked ci
            · rw [if_pos hmi]
              by_cases hvi : (resolve_expression dm (cellExpr ci)).isNull
              · rw [if_pos hvi]
                refine ⟨?_, h2⟩
                intro hmem
                rcases List.mem_cons.mp hmem with he | hmem2
                · exact hij he.symm
                · exact h1 hmem2
              · rw [if_neg hvi]
                refine ⟨h1, ?_⟩
                intro hmem
                rcases List.mem_cons.mp hmem with he | hmem2
                · exact hij he.symm
                · exact h2 hmem2
            · rw [if_neg hmi]
              exact ⟨h1, h2⟩

theorem applyUpdates_get?_notmem :
    ∀ (ups : List (Nat × JVal)) (d : List Cell) (j : Nat),
      j ∉ ups.map Prod.fst → (applyUpdates d ups).get? j = d.get? j := by
  intro ups
  induction ups with
  | nil => intro d j _; rfl
  | cons p rest ih =>
      intro d j hj
      obtain ⟨i, v⟩ := p
      have hij : i ≠ j := fun e => hj (by rw [← e]; exact List.mem_cons_self i _)
      have hjr : j ∉ rest.map Prod.fst := fun m => hj (List.mem_cons_of_mem _ m)
      show (applyUpdates (match d.get? i with
        | some c => d.set i (setVal c (applyVal v))
        | none => d) rest).get? j = d.get? j
      cases hd : d.get? i with
      | none => exact ih d j hjr
      | some c =>
          rw [ih _ j hjr, List.get?_set_ne _ _ hij]

theorem applyUpdates_get?_mem :
    ∀ (ups : List (Nat × JVal)) (d : List Cell) (j : Nat) (v : JVal),
      (ups.map Prod.fst).Nodup → (j, v) ∈ ups →
      (applyUpdates d ups).get? j = (d.get? j).map (fun c => setVal c (applyVal v)) := by
  intro ups
  induction ups with
  | nil => intro d j v _ hm; exact absurd hm (List.not_mem_nil _)
  | cons p rest ih =>
      intro d j v hnd hm
      obtain ⟨i, w⟩ := p
      have hnd' : i ∉ rest.map Prod.fst ∧ (rest.map Prod.fst).Nodup := by
        rw [List.map_cons] at hnd
        exact List.nodup_cons.mp hnd
      have hir := hnd'.1
      have hndr := hnd'.2
      show (applyUpdates (match d.get? i with
        | some c => d.set i (setVal c (applyVal w))
        | none => d) rest).get? j = _
      rcases List.mem_cons.mp hm with he | hmr
      · obtain ⟨rfl, rfl⟩ : i = j ∧ w = v := Prod.mk.injEq .. ▸ he.symm
        cases hd : d.get? i with
        | none =>
            rw [applyUpdates_get?_notmem rest d i hir, hd]
            rfl
        | some c =>
            rw [applyUpdates_get?_notmem rest _ i hir, List.get?_set_eq, hd]
            rfl
      · have hij : i ≠ j := by
          intro e
          exact hir (e ▸ (List.mem_map.mpr ⟨(j, v), hmr, rfl⟩))
        cases hd : d.get? i with
        | none => exact ih d j v hndr hmr
        | some c =>
            rw [ih _ j v hndr hmr, List.get?_set_ne _ _ hij]

theorem foldSet_get?_notmem :
    ∀ (ws : List (Nat × Cell)) (d : List Cell) (j : Nat),
      j ∉ ws.map Prod.fst → (foldSet d ws).get? j = d.get? j := by
  intro ws
  induction ws with
  | nil => intro d j _; rfl
  | cons p rest ih =>
      intro d j hj
      obtain ⟨i, c⟩ := p
      have hij : i ≠ j := fun e => hj (by rw [← e]; exact List.mem_cons_self i _)
      have hjr : j ∉ rest.map Prod.fst := fun m => hj (List.mem_cons_of_mem _ m)
      show (foldSet (d.set i c) rest).get? j = d.get? j
      rw [ih _ j hjr, List.get?_set_ne _ _ hij]

theorem foldSet_get?_mem :
    ∀ (ws : List (Nat × Cell)) (d : List Cell) (j : Nat) (c' : Cell),
      (ws.map Prod.fst).Nodup → (j, c') ∈ ws →
      (foldSet d ws).get? j = (d.get? j).map (fun _ => c') := by
  intro ws
  induction ws with
  | nil => intro d j c' _ hm; exact absurd hm (List.not_mem_nil _)
  | cons p rest ih =>
      intro d j c' hnd hm
      obtain ⟨i, w⟩ := p
      have hir : i ∉ rest.map Prod.fst := (List.nodup_cons.mp (by simpa using hnd)).1
      have hndr : (rest.map Prod.fst).Nodup := (List.nodup_cons.mp (by simpa using hnd)).2
      show (foldSet (d.set i w) rest).get? j = _
      rcases List.mem_cons.mp hm with he | hmr
      · obtain ⟨rfl, rfl⟩ : i = j ∧ w = c' := Prod.mk.injEq .. ▸ he.symm
        rw [foldSet_get?_notmem rest _ i hir, List.get?_set_eq]
        rfl
      · have hij : i ≠ j := by
          intro e
          exact hir (e ▸ (List.mem_map.mpr ⟨(j, c'), hmr, rfl⟩))
        rw [ih _ j c' hndr hmr, List.get?_set_ne _ _ hij]

theorem foldSet_length : ∀ (ws : List (Nat × Cell)) (d : List Cell),
    (foldSet d ws).length = d.length := by
  intro ws
  induction ws with
  | nil => intro d; rfl
  | cons p rest ih =>
      intro d
      show (foldSet (d.set p.fst p.snd) rest).length = d.length
      rw [ih, List.length_set]

theorem applyUpdates_length : ∀ (ups : List (Nat × JVal)) (d : List Cell),
    (applyUpdates d ups).length = d.length := by
  intro ups
  induction ups with
  | nil => intro d; rfl
  | cons p rest ih =>
      intro d
      show (applyUpdates (match d.get? p.fst with
        | some c => d.set p.fst (setVal c (applyVal p.snd))
        | none => d) rest).length = d.length
      cases hd : d.get? p.fst with
      | none => exact ih d
      | some c => rw [ih, List.length_set]

theorem mapToExcelOrder_pointwise (dm : DataMap) (doc : List Cell) (order : List Nat)
    (hnd : order.Nodup) (hmem : ∀ i, i ∈ order ↔ i < doc.length) :
    (mapToExcelOrder dm order doc).1 = doc.map (cellApply dm) := by
  unfold mapToExcelOrder
  rw [scanGo_eq_outcomes dm order doc doc hnd (fun _ _ => rfl)]
  dsimp only
  apply List.ext_get?
  intro j
  rw [List.get?_map]
  have hndNull : ((scanOutcomes dm doc order).1.map Prod.fst).Nodup :=
    (scanOutcomes_nullIdx_sublist dm doc order).nodup hnd
  have hndUp : ((scanOutcomes dm doc order).2.1.map Prod.fst).Nodup :=
    (scanOutcomes_upIdx_sublist dm doc order).nodup hnd
  by_cases hj : j < doc.length
  · have hjo : j ∈ order := (hmem j).mpr hj
    cases hc : doc.get? j with
    | none =>
        rw [List.get?_eq_none] at hc
        omega
    | some c =>
        by_cases hm : cellIsMarked c
        · by_cases hv : (resolve_expression dm (cellExpr c)).isNull
          · obtain ⟨hin, hnup⟩ :=
              scanOutcomes_null_mem dm doc order hnd j c hjo hc hm hv
            rw [applyUpdates_get?_notmem _ _ _ hnup,
              foldSet_get?_mem _ _ _ _ hndNull hin, hc]
            simp [cellApply, hm, hv]
          · have hv' : (resolve_expression dm (cellExpr c)).isNull = false :=
              Bool.not_eq_true _ ▸ (by simpa using hv)
            obtain ⟨hin, hnnull⟩ :=
              scanOutcomes_up_mem dm doc order hnd j c hjo hc hm hv'
            rw [applyUpdates_get?_mem _ _ _ _ hndUp hin,
              foldSet_get?_notmem _ _ _ hnnull, hc]
            simp [cellApply, hm, hv']
        · have hm' : cellIsMarked c = false := by simpa using hm
          obtain ⟨hnnull, hnup⟩ := scanOutcomes_unmarked dm doc order j c hc hm'
          rw [applyUpdates_get?_notmem _ _ _ hnup,
            foldSet_get?_notmem _ _ _ hnnull, hc]
          simp [cellApply, hm']
  · have hc : doc.get? j = none := List.get?_eq_none.mpr (by omega)
    rw [hc]
    have hlen : (applyUpdates (foldSet doc (scanOutcomes dm doc order).1)
        (scanOutcomes dm doc order).2.1).length = doc.length := by
      rw [applyUpdates_length, foldSet_length]
    rw [List.get?_eq_none.mpr (by omega : (applyUpdates (foldSet doc
      (scanOutcomes dm doc order).1) (scanOutcomes dm doc order).2.1).length ≤ j)]
    rfl

/-- C2 counterexample: scanning a document whose single marked cell has an
unresolvable expression mutates that cell to the `"NULL"` sentinel while
the scan is still the running phase (nothing about it is staged in
`cells_to_update`): the in-place write during iteration contradicts the
claim that every write is staged and applied only after the scan. -/
theorem c2_sentinel_written_during_scan :
    (scanGo [] [0] [⟨.str "bogus", true, some "FF0000"⟩]).1 =
      [⟨.str "NULL", true, some "FF0000"⟩] ∧
    (scanGo [] [0] [⟨.str "bogus", true, some "FF0000"⟩]).1 ≠
      [⟨.str "bogus", true, some "FF0000"⟩] ∧
    (scanGo [] [0] [⟨.str "bogus", true, some "FF0000"⟩]).2.1 = [] := by
  refine ⟨rfl, by decide, rfl⟩

/-- C2 amended: resolved values are staged and applied after the scan,
but unresolved sentinels are written in place during the scan;
nevertheless, because selection and resolution depend only on each
cell's original content and the run context — never on another cell —
the final document equals the independent per-cell mapping, and is
therefore the same for every scan order. -/
theorem c2_mapping_order_independent (dm : DataMap) (doc : List Cell)
    (order1 order2 : List Nat)
    (h1 : order1.Nodup) (hm1 : ∀ i, i ∈ order1 ↔ i < doc.length)
    (h2 : order2.Nodup) (hm2 : ∀ i, i ∈ order2 ↔ i < doc.length) :
    (mapToExcelOrder dm order1 doc).1 = doc.map (cellApply dm) ∧
    (mapToExcelOrder dm order1 doc).1 = (mapToExcelOrder dm order2 doc).1 := by
  have e1 := mapToExcelOrder_pointwise dm doc order1 h1 hm1
  have e2 := mapToExcelOrder_pointwise dm doc order2 h2 hm2
  exact ⟨e1, e1.trans e2.symm⟩

/-- C2 witness: a two-cell document scanned forwards and backwards
produces the same final document, the per-cell mapping. -/
theorem c2_mapping_order_independent_witness :
    (mapToExcelOrder [("x", JVal.num (.int 7))] [0, 1]
      [⟨.str "x", true, some "FF0000"⟩, ⟨.str "y['k']", true, some "FF0000"⟩]).1 =
      [⟨.str "x", true, some "FF0000"⟩, ⟨.str "y['k']", true, some "FF0000"⟩].map
        (cellApply [("x", JVal.num (.int 7))]) ∧
    (mapToExcelOrder [("x", JVal.num (.int 7))] [0, 1]
      [⟨.str "x", true, some "FF0000"⟩, ⟨.str "y['k']", true, some "FF0000"⟩]).1 =
    (mapToExcelOrder [("x", JVal.num (.int 7))] [1, 0]
      [⟨.str "x", true, some "FF0000"⟩, ⟨.str "y['k']", true, some "FF0000"⟩]).1 := by
  exact c2_mapping_order_independent _ _ [0, 1] [1, 0]
    (by decide) (by intro i; simp; omega)
    (by decide) (by intro i; simp; omega)

/-- C10: a present-but-null stored field and a failed resolution are
indistinguishable.  `resolve_expression` returns the same `None` whether
the path resolved to a stored null or failed entirely, and the mapping
pass writes the `"NULL"` sentinel into the marked cell in both cases. -/
theorem c10_null_field_indistinguishable (dm : DataMap) (e : List Char)
    (doc : List Cell) (j : Nat) (c : Cell) :
    (resolveLookup dm e = some JVal.null → resolve_expression dm e = JVal.null) ∧
    (resolveLookup dm e = none → resolve_expression dm e = JVal.null) ∧
    (doc.get? j = some c → cellIsMarked c = true →
      resolve_expression dm (cellExpr c) = JVal.null →
      (map_to_excel dm doc).1.get? j = some (setVal c (.str "NULL"))) := by
  have hagree : resolve_expression dm e = (resolveLookup dm e).getD JVal.null := by
    have hwalk : ∀ (ks : List (List Char)) (v : JVal),
        walkKeys v ks = (resolveLookup.walkLookup v ks).getD JVal.null := by
      intro ks
      induction ks with
      | nil => intro v; rfl
      | cons k t ih =>
          intro v
          cases v with
          | obj kvs =>
              rw [walkKeys, resolveLookup.walkLookup]
              cases hs : stepKey kvs k with
              | none => rfl
              | some v2 => exact ih v2
          | null => rfl
          | bool b => rfl
          | num n => rfl
          | str s => rfl
          | arr items => rfl
    unfold resolve_expression resolveLookup
    dsimp only
    cases hp : matchExprRe (pyStrip e) with
    | none => rfl
    | some br =>
        obtain ⟨base, rest⟩ := br
        dsimp only
        cases hg : normMapGet dm base with
        | none => rfl
        | some bk =>
            dsimp only
            by_cases hbk : bk = ""
            · rw [if_pos hbk, if_pos hbk]
              rfl
            · rw [if_neg hbk, if_neg hbk]
              cases ha : assocGet dm bk with
              | none => rfl
              | some v0 => exact hwalk (bracketKeys rest) v0
  refine ⟨?_, ?_, ?_⟩
  · intro h
    rw [hagree, h]
    rfl
  · intro h
    rw [hagree, h]
    rfl
  · intro hc hm hv
    unfold map_to_excel
    rw [mapToExcelOrder_pointwise dm doc (List.range doc.length)
      (List.nodup_range _) (fun i => by simp [List.mem_range])]
    rw [List.get?_map, hc]
    simp [cellApply, hm, hv, JVal.isNull]

/-- C10 witness: in a snapshot where `alpha_service.nr_arfcn` is null,
the expression for that existing path and an unknown identifier both
resolve to `None` (though `resolveLookup` distinguishes them), and the
mapping pass writes `"NULL"` for both cells. -/
theorem c10_null_field_indistinguishable_witness :
    resolveLookup (ProcessingContext.to_dict {}) "alpha_service['nr_arfcn']".data =
      some JVal.null ∧
    resolve_expression (ProcessingContext.to_dict {}) "alpha_service['nr_arfcn']".data =
      JVal.null ∧
    resolveLookup (ProcessingContext.to_dict {}) "bogus_name".data = none ∧
    resolve_expression (ProcessingContext.to_dict {}) "bogus_name".data = JVal.null ∧
    (map_to_excel (ProcessingContext.to_dict {})
      [⟨.str "alpha_service['nr_arfcn']", true, some "FF0000"⟩]).1.get? 0 =
      some ⟨.str "NULL", true, some "FF0000"⟩ := by
  refine ⟨rfl, ?_, rfl, ?_, ?_⟩
  · exact (c10_null_field_indistinguishable (ProcessingContext.to_dict {})
      "alpha_service['nr_arfcn']".data [] 0 ⟨.empty, false, none⟩).1 rfl
  · exact (c10_null_field_indistinguishable (ProcessingContext.to_dict {})
      "bogus_name".data [] 0 ⟨.empty, false, none⟩).2.1 rfl
  · exact (c10_null_field_indistinguishable (ProcessingContext.to_dict {})
      "alpha_service['nr_arfcn']".data
      [⟨.str "alpha_service['nr_arfcn']", true, some "FF0000"⟩] 0
      ⟨.str "alpha_service['nr_arfcn']", true, some "FF0000"⟩).2.2 rfl (by decide) rfl
